import Mathlib

/-!
Verification of the aicpu_build_graph task-graph runtime.

The development shallow-embeds the host-side marshalling/finalize code
(runtime_maker.cpp), the kernel binary cache (function_cache.h) and the
on-device orchestration delegate (orchestration.cpp), together with a
model of the Task Graph Builder API whose implementation lives in
runtime.h (not part of the sources at hand) and is therefore modelled
from the design specification.
-/

namespace TaskGraph

/-- Modelled from the spec: a Task record of the Graph Store.  runtime.h is
not among the sources; the fields follow section 3 of the design: argument
list (each a 64-bit value), function identifier, target core type, a
publication flag, a completion flag, the pending-predecessor counter and
the outgoing successor set. -/
structure Task where
  args : List Nat
  funcId : Nat
  coreType : Nat
  published : Bool
  complete : Bool
  pending : Nat
  succs : List Nat
deriving Repr, DecidableEq

/-- Modelled from the spec: the Graph Store is a dense array of Task
records; the task identifier is the index. -/
structure GraphStore where
  tasks : List Task
deriving Repr, DecidableEq

def GraphStore.empty : GraphStore := ⟨[]⟩

/-- Capacity constants of the store (compile-time platform constants in the
sources; kept abstract here). -/
structure Caps where
  maxTasks : Nat
  maxArgs : Nat
deriving Repr, DecidableEq

/-- Replace the task at index `i` by `f` applied to it; out-of-range is a
no-op. -/
def modifyTask (st : GraphStore) (i : Nat) (f : Task → Task) : GraphStore :=
  match st.tasks[i]? with
  | some t => ⟨st.tasks.set i (f t)⟩
  | none => st

/-- Modelled from the spec: `add_task` allocates the next dense identifier,
copies the argument array by value, records func_id and the target core
type.  It fails with a negative sentinel if the store is at capacity, if
the argument count exceeds the per-task limit, or if `func_id` has no
registered device address (`ka` is the kernel address table).  The new
task is unpublished, incomplete, has pending count 0 and no successors. -/
def add_task (caps : Caps) (ka : Nat → Nat) (st : GraphStore)
    (args : List Nat) (funcId coreType : Nat) : Int × GraphStore :=
  if caps.maxTasks ≤ st.tasks.length then (-1, st)
  else if caps.maxArgs < args.length then (-1, st)
  else if ka funcId = 0 then (-1, st)
  else (Int.ofNat st.tasks.length,
    ⟨st.tasks ++ [⟨args, funcId, coreType, false, false, 0, []⟩]⟩)

/-- Modelled from the spec: `add_successor_conditional` validates that both
identifiers name existing tasks and that the successor is not yet
published; on success it appends the successor to the predecessor's
outgoing set and increments the successor's pending-predecessor count,
otherwise it returns a failure status and leaves the store unchanged. -/
def add_successor_conditional (st : GraphStore) (pred succ : Nat) :
    Int × GraphStore :=
  match st.tasks[pred]?, st.tasks[succ]? with
  | some _, some ts =>
    if ts.published then (-1, st)
    else (0, modifyTask
      (modifyTask st pred (fun t => { t with succs := t.succs ++ [succ] }))
      succ (fun t => { t with pending := t.pending + 1 }))
  | _, _ => (-1, st)

/-- Modelled from the spec: `publish_task` sets the published flag of an
existing, not-yet-published task; an invalid identifier or a second
publication of the same task is rejected with a failure status and the
store is left unchanged. -/
def publish_task (st : GraphStore) (tid : Nat) : Int × GraphStore :=
  match st.tasks[tid]? with
  | some t =>
    if t.published then (-1, st)
    else (0, modifyTask st tid (fun u => { u with published := true }))
  | none => (-1, st)

/-- Number of predecessor edges into task `t`, counted with multiplicity
across all outgoing sets. -/
def predCount (st : GraphStore) (t : Nat) : Nat :=
  (st.tasks.map (fun tk => tk.succs.count t)).sum

/-- Task `p` is a predecessor of task `t`: the store holds `p` and its
outgoing set contains `t`. -/
def IsPredOf (st : GraphStore) (p t : Nat) : Prop :=
  ∃ tp, st.tasks[p]? = some tp ∧ t ∈ tp.succs

/-- A task is dispatch-eligible when its published flag is set and its
pending-predecessor count has reached zero. -/
def dispatchEligible (st : GraphStore) (t : Nat) : Bool :=
  match st.tasks[t]? with
  | some tk => tk.published && tk.pending == 0
  | none => false

/-- One builder call, as issued by a host or delegate build sequence. -/
inductive BOp where
  | addTask (args : List Nat) (funcId coreType : Nat)
  | addEdge (pred succ : Nat)
  | publish (tid : Nat)
deriving Repr, DecidableEq

/-- Apply one builder call to the store, keeping only the state (the status
is returned to the caller). -/
def stepOp (caps : Caps) (ka : Nat → Nat) (st : GraphStore) : BOp → GraphStore
  | .addTask args fid ct => (add_task caps ka st args fid ct).2
  | .addEdge p s => (add_successor_conditional st p s).2
  | .publish t => (publish_task st t).2

/-- Run a sequence of builder calls from the empty store. -/
def runOps (caps : Caps) (ka : Nat → Nat) (ops : List BOp) : GraphStore :=
  ops.foldl (stepOp caps ka) GraphStore.empty

/-- Build-phase invariant: no task is complete, each pending counter equals
the number of incoming edges, and all recorded successors are in range. -/
def Inv (st : GraphStore) : Prop :=
  (∀ t ∈ st.tasks, t.complete = false) ∧
  (∀ i tk, st.tasks[i]? = some tk → tk.pending = predCount st i) ∧
  (∀ tk ∈ st.tasks, ∀ s ∈ tk.succs, s < st.tasks.length)

lemma modifyTask_eq_set {st : GraphStore} {i : Nat} {t : Task}
    (h : st.tasks[i]? = some t) (f : Task → Task) :
    modifyTask st i f = ⟨st.tasks.set i (f t)⟩ := by
  simp [modifyTask, h]

lemma modifyTask_length (st : GraphStore) (i : Nat) (f : Task → Task) :
    (modifyTask st i f).tasks.length = st.tasks.length := by
  unfold modifyTask
  cases h : st.tasks[i]? with
  | none => rfl
  | some t => simp

lemma modifyTask_get_self {st : GraphStore} {i : Nat} {t : Task}
    (h : st.tasks[i]? = some t) (f : Task → Task) :
    (modifyTask st i f).tasks[i]? = some (f t) := by
  have hi : i < st.tasks.length := by
    by_contra hlt
    simp [List.getElem?_eq_none (Nat.le_of_not_lt hlt)] at h
  rw [modifyTask_eq_set h]
  simp [List.getElem?_set_self', List.getElem?_eq_getElem hi]

lemma modifyTask_get_ne {st : GraphStore} {i j : Nat} (hne : j ≠ i)
    (f : Task → Task) : (modifyTask st i f).tasks[j]? = st.tasks[j]? := by
  unfold modifyTask
  cases h : st.tasks[i]? with
  | none => rfl
  | some t => simp [List.getElem?_set_ne (fun he => hne he.symm)]

lemma sum_map_set (g : Task → Nat) (l : List Task) (i : Nat) (ti b : Task)
    (h : l[i]? = some ti) :
    ((l.set i b).map g).sum + g ti = (l.map g).sum + g b := by
  induction l generalizing i with
  | nil => simp at h
  | cons hd tl ih =>
    cases i with
    | zero =>
      simp at h
      subst h
      simp [List.set]
      omega
    | succ n =>
      simp only [List.getElem?_cons_succ] at h
      have := ih n h
      simp only [List.set_cons_succ, List.map_cons, List.sum_cons]
      omega

lemma predCount_set (st : GraphStore) (i t : Nat) (ti b : Task)
    (h : st.tasks[i]? = some ti) :
    predCount ⟨st.tasks.set i b⟩ t + ti.succs.count t
      = predCount st t + b.succs.count t := by
  exact sum_map_set (fun tk => tk.succs.count t) st.tasks i ti b h

lemma predCount_modify_pending (st : GraphStore) (i t : Nat) (d : Nat) :
    predCount (modifyTask st i (fun u => { u with pending := u.pending + d })) t
      = predCount st t := by
  cases h : st.tasks[i]? with
  | none => simp [modifyTask, h]
  | some ti =>
    rw [modifyTask_eq_set h]
    have := predCount_set st i t ti { ti with pending := ti.pending + d } h
    simp at this
    omega

lemma predCount_modify_publish (st : GraphStore) (i t : Nat) :
    predCount (modifyTask st i (fun u => { u with published := true })) t
      = predCount st t := by
  cases h : st.tasks[i]? with
  | none => simp [modifyTask, h]
  | some ti =>
    rw [modifyTask_eq_set h]
    have := predCount_set st i t ti { ti with published := true } h
    simp at this
    omega

lemma predCount_modify_succs (st : GraphStore) (i t s : Nat) {ti : Task}
    (h : st.tasks[i]? = some ti) :
    predCount (modifyTask st i (fun u => { u with succs := u.succs ++ [s] })) t
      = predCount st t + (if s = t then 1 else 0) := by
  rw [modifyTask_eq_set h]
  have h1 := predCount_set st i t ti { ti with succs := ti.succs ++ [s] } h
  have hcnt : List.count t [s] = if s = t then 1 else 0 := by
    by_cases hst : s = t
    · simp [List.count_cons, hst]
    · simp [List.count_cons, hst]
  simp only [List.count_append] at h1
  rw [hcnt] at h1
  omega

lemma predCount_append_new (st : GraphStore) (t : Nat) (nt : Task)
    (hnt : nt.succs = []) :
    predCount ⟨st.tasks ++ [nt]⟩ t = predCount st t := by
  unfold predCount
  simp [hnt]

lemma inv_empty : Inv GraphStore.empty := by
  refine ⟨by simp [GraphStore.empty], ?_, by simp [GraphStore.empty]⟩
  intro i tk h
  simp [GraphStore.empty] at h

lemma inv_add_task (caps : Caps) (ka : Nat → Nat) (st : GraphStore)
    (args : List Nat) (fid ct : Nat) (hInv : Inv st) :
    Inv (add_task caps ka st args fid ct).2 := by
  obtain ⟨hc, hp, hs⟩ := hInv
  unfold add_task
  split
  · exact ⟨hc, hp, hs⟩
  split
  · exact ⟨hc, hp, hs⟩
  split
  · exact ⟨hc, hp, hs⟩
  refine ⟨?_, ?_, ?_⟩
  · intro t ht
    simp at ht
    rcases ht with ht | ht
    · exact hc t ht
    · simp [ht]
  · intro i tk hget
    have hlen : i < st.tasks.length + 1 := by
      by_contra hlt
      rw [List.getElem?_eq_none] at hget
      · exact Option.noConfusion hget
      · simpa using Nat.le_of_not_lt hlt
    rw [predCount_append_new st i _ rfl]
    rcases Nat.lt_or_ge i st.tasks.length with hi | hi
    · rw [List.getElem?_append_left hi] at hget
      exact hp i tk hget
    · have : i = st.tasks.length := by omega
      subst this
      rw [List.getElem?_append_right (Nat.le_refl _)] at hget
      simp at hget
      subst hget
      -- the new task has pending 0 and, being fresh, no incoming edges
      have : predCount st st.tasks.length = 0 := by
        unfold predCount
        rw [List.sum_eq_zero_iff]
        intro x hx
        simp at hx
        obtain ⟨tk', htk', hcnt⟩ := hx
        rw [← hcnt, List.count_eq_zero]
        intro hmem
        have := hs tk' htk' _ hmem
        omega
      simpa using this.symm
  · intro tk htk s hsm
    simp at htk
    rcases htk with htk | htk
    · have := hs tk htk s hsm
      simp
      omega
    · subst htk
      simp at hsm

lemma inv_add_successor (st : GraphStore) (p s : Nat) (hInv : Inv st) :
    Inv (add_successor_conditional st p s).2 := by
  obtain ⟨hc, hp, hs⟩ := hInv
  unfold add_successor_conditional
  cases hgp : st.tasks[p]? with
  | none => exact ⟨hc, hp, hs⟩
  | some tp =>
    cases hgs : st.tasks[s]? with
    | none => exact ⟨hc, hp, hs⟩
    | some ts =>
      simp only
      split
      · exact ⟨hc, hp, hs⟩
      rename_i hpub
      have hslen : s < st.tasks.length := by
        by_contra hlt
        rw [List.getElem?_eq_none (Nat.le_of_not_lt hlt)] at hgs
        exact Option.noConfusion hgs
      -- pending counters after the operation, via the counting lemmas
      have hpc2 : ∀ t, predCount (modifyTask
          (modifyTask st p (fun u => { u with succs := u.succs ++ [s] }))
          s (fun u => { u with pending := u.pending + 1 })) t
          = predCount st t + (if s = t then 1 else 0) := by
        intro t
        rw [predCount_modify_pending, predCount_modify_succs st p t s hgp]
      by_cases hps : p = s
      · -- self edge: both updates hit the same record
        subst hps
        have hts : ts = tp := by
          rw [hgp] at hgs
          exact (Option.some.inj hgs).symm
        subst hts
        set tp1 : Task := { ts with succs := ts.succs ++ [p] } with htp1
        have hg1 : (modifyTask st p (fun u => { u with succs := u.succs ++ [p] })).tasks[p]? = some tp1 :=
          modifyTask_get_self hgp _
        have hget2 : ∀ u, (modifyTask
            (modifyTask st p (fun u => { u with succs := u.succs ++ [p] }))
            p (fun u => { u with pending := u.pending + 1 })).tasks[u]? =
            if u = p then some { tp1 with pending := tp1.pending + 1 }
            else st.tasks[u]? := by
          intro u
          by_cases hup : u = p
          · subst hup
            rw [if_pos rfl]
            exact modifyTask_get_self hg1 _
          · rw [if_neg hup, modifyTask_get_ne hup, modifyTask_get_ne hup]
        refine ⟨?_, ?_, ?_⟩
        · intro t ht
          rw [List.mem_iff_getElem?] at ht
          obtain ⟨j, hj⟩ := ht
          rw [hget2] at hj
          by_cases hjp : j = p
          · rw [if_pos hjp] at hj
            obtain rfl := (Option.some.inj hj).symm
            simpa [htp1] using hc ts (List.getElem?_mem hgp)
          · rw [if_neg hjp] at hj
            exact hc t (List.getElem?_mem hj)
        · intro i tk hget
          rw [hget2] at hget
          rw [hpc2]
          by_cases hip : i = p
          · subst hip
            rw [if_pos rfl] at hget
            obtain rfl := (Option.some.inj hget).symm
            have := hp i ts hgp
            simp [htp1, this]
          · rw [if_neg hip] at hget
            have hne : ¬ (p = i) := fun he => hip he.symm
            rw [if_neg hne]
            simpa using hp i tk hget
        · intro tk htk u hu
          rw [List.mem_iff_getElem?] at htk
          obtain ⟨j, hj⟩ := htk
          rw [hget2] at hj
          rw [modifyTask_length, modifyTask_length]
          by_cases hjp : j = p
          · rw [if_pos hjp] at hj
            obtain rfl := (Option.some.inj hj).symm
            simp [htp1] at hu
            rcases hu with hu | hu
            · exact hs ts (List.getElem?_mem hgp) u hu
            · omega
          · rw [if_neg hjp] at hj
            exact hs tk (List.getElem?_mem hj) u hu
      · -- distinct predecessor and successor records
        set tp1 : Task := { tp with succs := tp.succs ++ [s] } with htp1
        set ts1 : Task := { ts with pending := ts.pending + 1 } with hts1
        have hg1p : (modifyTask st p (fun u => { u with succs := u.succs ++ [s] })).tasks[p]? = some tp1 :=
          modifyTask_get_self hgp _
        have hg1s : (modifyTask st p (fun u => { u with succs := u.succs ++ [s] })).tasks[s]? = some ts := by
          rw [modifyTask_get_ne (fun he => hps he.symm)]
          exact hgs
        have hget2 : ∀ u, (modifyTask
            (modifyTask st p (fun u => { u with succs := u.succs ++ [s] }))
            s (fun u => { u with pending := u.pending + 1 })).tasks[u]? =
            if u = s then some ts1
            else if u = p then some tp1
            else st.tasks[u]? := by
          intro u
          by_cases hus : u = s
          · subst hus
            rw [if_pos rfl]
            exact modifyTask_get_self hg1s _
          · rw [if_neg hus, modifyTask_get_ne hus]
            by_cases hup : u = p
            · subst hup
              rw [if_pos rfl]
              exact hg1p
            · rw [if_neg hup, modifyTask_get_ne hup]
        refine ⟨?_, ?_, ?_⟩
        · intro t ht
          rw [List.mem_iff_getElem?] at ht
          obtain ⟨j, hj⟩ := ht
          rw [hget2] at hj
          by_cases hjs : j = s
          · rw [if_pos hjs] at hj
            obtain rfl := (Option.some.inj hj).symm
            simpa [hts1] using hc ts (List.getElem?_mem hgs)
          · rw [if_neg hjs] at hj
            by_cases hjp : j = p
            · rw [if_pos hjp] at hj
              obtain rfl := (Option.some.inj hj).symm
              simpa [htp1] using hc tp (List.getElem?_mem hgp)
            · rw [if_neg hjp] at hj
              exact hc t (List.getElem?_mem hj)
        · intro i tk hget
          rw [hget2] at hget
          rw [hpc2]
          by_cases his : i = s
          · subst his
            rw [if_pos rfl] at hget
            obtain rfl := (Option.some.inj hget).symm
            have := hp i ts hgs
            simp [hts1, this]
          · rw [if_neg his] at hget
            have hne : ¬ (s = i) := fun he => his he.symm
            rw [if_neg hne]
            by_cases hip : i = p
            · subst hip
              rw [if_pos rfl] at hget
              obtain rfl := (Option.some.inj hget).symm
              have := hp i tp hgp
              simp [htp1, this]
            · rw [if_neg hip] at hget
              simpa using hp i tk hget
        · intro tk htk u hu
          rw [List.mem_iff_getElem?] at htk
          obtain ⟨j, hj⟩ := htk
          rw [hget2] at hj
          rw [modifyTask_length, modifyTask_length]
          by_cases hjs : j = s
          · rw [if_pos hjs] at hj
            obtain rfl := (Option.some.inj hj).symm
            simp [hts1] at hu
            exact hs ts (List.getElem?_mem hgs) u hu
          · rw [if_neg hjs] at hj
            by_cases hjp : j = p
            · rw [if_pos hjp] at hj
              obtain rfl := (Option.some.inj hj).symm
              simp [htp1] at hu
              rcases hu with hu | hu
              · exact hs tp (List.getElem?_mem hgp) u hu
              · omega
            · rw [if_neg hjp] at hj
              exact hs tk (List.getElem?_mem hj) u hu

lemma inv_publish (st : GraphStore) (tid : Nat) (hInv : Inv st) :
    Inv (publish_task st tid).2 := by
  obtain ⟨hc, hp, hs⟩ := hInv
  unfold publish_task
  cases hg : st.tasks[tid]? with
  | none => exact ⟨hc, hp, hs⟩
  | some t =>
    simp only
    split
    · exact ⟨hc, hp, hs⟩
    refine ⟨?_, ?_, ?_⟩
    · intro u hu
      rw [List.mem_iff_getElem?] at hu
      obtain ⟨j, hj⟩ := hu
      by_cases hjt : j = tid
      · subst hjt
        rw [modifyTask_get_self hg] at hj
        simp at hj
        obtain rfl := hj.symm
        exact hc t (List.getElem?_mem hg)
      · rw [modifyTask_get_ne hjt] at hj
        exact hc u (List.getElem?_mem hj)
    · intro i tk hget
      rw [predCount_modify_publish]
      by_cases hit : i = tid
      · subst hit
        rw [modifyTask_get_self hg] at hget
        simp at hget
        obtain rfl := hget.symm
        have := hp i t hg
        simpa using this
      · rw [modifyTask_get_ne hit] at hget
        exact hp i tk hget
    · intro tk htk u hu
      rw [modifyTask_length]
      rw [List.mem_iff_getElem?] at htk
      obtain ⟨j, hj⟩ := htk
      by_cases hjt : j = tid
      · subst hjt
        rw [modifyTask_get_self hg] at hj
        simp at hj
        obtain rfl := hj.symm
        exact hs t (List.getElem?_mem hg) u hu
      · rw [modifyTask_get_ne hjt] at hj
        exact hs tk (List.getElem?_mem hj) u hu

lemma inv_step (caps : Caps) (ka : Nat → Nat) (st : GraphStore) (op : BOp)
    (hInv : Inv st) : Inv (stepOp caps ka st op) := by
  cases op with
  | addTask args fid ct => exact inv_add_task caps ka st args fid ct hInv
  | addEdge p s => exact inv_add_successor st p s hInv
  | publish t => exact inv_publish st t hInv

lemma inv_runOps (caps : Caps) (ka : Nat → Nat) (ops : List BOp) :
    Inv (runOps caps ka ops) := by
  unfold runOps
  have h : ∀ st, Inv st → Inv (ops.foldl (stepOp caps ka) st) := by
    induction ops with
    | nil => intro st h; exact h
    | cons op rest ih =>
      intro st h
      exact ih _ (inv_step caps ka st op h)
  exact h _ inv_empty

/-- C1: for every valid sequence of add_task / add_successor_conditional /
publish_task calls, a task of the resulting store is dispatch-eligible if
and only if its published flag is set and every one of its predecessor
tasks is complete; moreover all predecessors being complete is equivalent
to its pending-predecessor count having reached zero. -/
theorem dispatch_eligible_iff_published_and_preds_complete
    (caps : Caps) (ka : Nat → Nat) (ops : List BOp) (t : Nat) (tk : Task)
    (hget : (runOps caps ka ops).tasks[t]? = some tk) :
    (dispatchEligible (runOps caps ka ops) t = true ↔
      (tk.published = true ∧
        ∀ (p : Nat) (tp : Task), (runOps caps ka ops).tasks[p]? = some tp → t ∈ tp.succs →
          tp.complete = true)) ∧
    ((∀ (p : Nat) (tp : Task), (runOps caps ka ops).tasks[p]? = some tp → t ∈ tp.succs →
        tp.complete = true) ↔ tk.pending = 0) := by
  obtain ⟨hc, hp, _⟩ := inv_runOps caps ka ops
  have hpend := hp t tk hget
  have hpredzero :
      (∀ (p : Nat) (tp : Task), (runOps caps ka ops).tasks[p]? = some tp → t ∈ tp.succs →
        tp.complete = true) ↔ predCount (runOps caps ka ops) t = 0 := by
    constructor
    · intro hall
      by_contra hnz
      have hex : ∃ x ∈ (runOps caps ka ops).tasks.map
          (fun tk => tk.succs.count t), x ≠ 0 := by
        by_contra hno
        push_neg at hno
        exact hnz (List.sum_eq_zero_iff.mpr hno)
      obtain ⟨x, hxmem, hxne⟩ := hex
      rw [List.mem_map] at hxmem
      obtain ⟨tk', htk', hxeq⟩ := hxmem
      have htmem : t ∈ tk'.succs := by
        by_contra hnot
        have h0 := List.count_eq_zero.mpr hnot
        omega
      obtain ⟨p, hpget⟩ := List.mem_iff_getElem?.mp htk'
      have hcomp := hall p tk' hpget htmem
      rw [hc tk' htk'] at hcomp
      exact Bool.noConfusion hcomp
    · intro hz p tp hpget htmem
      exfalso
      have h0 : tp.succs.count t = 0 := by
        unfold predCount at hz
        rw [List.sum_eq_zero_iff] at hz
        exact hz _ (List.mem_map_of_mem _ (List.getElem?_mem hpget))
      rw [List.count_eq_zero] at h0
      exact h0 htmem
  constructor
  · unfold dispatchEligible
    rw [hget]
    simp only [Bool.and_eq_true, beq_iff_eq]
    rw [hpredzero, hpend]
  · rw [hpredzero, hpend]

/-- Witness for C1 at a concrete run: one task added and published, with no
predecessors; it is dispatch-eligible. -/
theorem dispatch_eligible_iff_witness :
    (dispatchEligible
        (runOps ⟨4, 4⟩ (fun _ => 1) [BOp.addTask [] 0 0, BOp.publish 0]) 0
        = true ↔
      (Task.published ⟨[], 0, 0, true, false, 0, []⟩ = true ∧
        ∀ (p : Nat) (tp : TaskGraph.Task),
          (runOps ⟨4, 4⟩ (fun _ => 1)
            [BOp.addTask [] 0 0, BOp.publish 0]).tasks[p]? = some tp →
          0 ∈ tp.succs → tp.complete = true)) ∧
    ((∀ (p : Nat) (tp : TaskGraph.Task),
        (runOps ⟨4, 4⟩ (fun _ => 1)
          [BOp.addTask [] 0 0, BOp.publish 0]).tasks[p]? = some tp →
        0 ∈ tp.succs → tp.complete = true) ↔
      Task.pending ⟨[], 0, 0, true, false, 0, []⟩ = 0) :=
  dispatch_eligible_iff_published_and_preds_complete ⟨4, 4⟩ (fun _ => 1)
    [BOp.addTask [] 0 0, BOp.publish 0] 0 ⟨[], 0, 0, true, false, 0, []⟩
    (by decide)

/-- C2: add_successor_conditional with a predecessor that does not name an
existing task, or a successor that is out of range or already published,
returns the failure status and leaves the graph store entirely
unchanged. -/
theorem add_successor_invalid_fails_no_mutation
    (st : GraphStore) (pred succ : Nat)
    (h : st.tasks[pred]? = none ∨ st.tasks[succ]? = none ∨
      ∃ ts, st.tasks[succ]? = some ts ∧ ts.published = true) :
    add_successor_conditional st pred succ = (-1, st) := by
  unfold add_successor_conditional
  rcases h with h | h | ⟨ts, hts, hpub⟩
  · rw [h]
  · rw [h]
    cases st.tasks[pred]? <;> rfl
  · rw [hts]
    cases st.tasks[pred]? with
    | none => rfl
    | some tp => simp [hpub]

/-- Witness for C2: an edge to an already-published successor in a
one-task store fails and leaves the store unchanged. -/
theorem add_successor_invalid_fails_witness :
    add_successor_conditional ⟨[⟨[], 0, 0, true, false, 0, []⟩]⟩ 0 0
      = (-1, ⟨[⟨[], 0, 0, true, false, 0, []⟩]⟩) :=
  add_successor_invalid_fails_no_mutation ⟨[⟨[], 0, 0, true, false, 0, []⟩]⟩ 0 0
    (Or.inr (Or.inr ⟨⟨[], 0, 0, true, false, 0, []⟩, by decide, rfl⟩))

/-- C3: publishing a valid unpublished task succeeds; calling publish_task a
second time on the same identifier fails with an error status, leaves the
published flag set from the first call, and leaves the store (hence the
dispatch set) unchanged. -/
theorem publish_twice_second_fails
    (st : GraphStore) (tid : Nat) (t : Task)
    (hget : st.tasks[tid]? = some t) (hpub : t.published = false) :
    (publish_task st tid).1 = 0 ∧
    ((publish_task st tid).2.tasks[tid]? = some { t with published := true }) ∧
    publish_task (publish_task st tid).2 tid = (-1, (publish_task st tid).2) := by
  have hfirst : publish_task st tid =
      (0, modifyTask st tid (fun u => { u with published := true })) := by
    unfold publish_task
    rw [hget]
    simp [hpub]
  have hget2 : (modifyTask st tid (fun u => { u with published := true })).tasks[tid]?
      = some { t with published := true } := modifyTask_get_self hget _
  refine ⟨by rw [hfirst], by rw [hfirst]; exact hget2, ?_⟩
  rw [hfirst]
  unfold publish_task
  rw [hget2]
  simp

/-- Witness for C3: publishing task 0 of a one-task store succeeds, and a
second publish_task on it fails without changing the store. -/
theorem publish_twice_second_fails_witness :
    (publish_task ⟨[⟨[], 0, 0, false, false, 0, []⟩]⟩ 0).1 = 0 ∧
    ((publish_task ⟨[⟨[], 0, 0, false, false, 0, []⟩]⟩ 0).2.tasks[0]?
      = some ⟨[], 0, 0, true, false, 0, []⟩) ∧
    publish_task (publish_task ⟨[⟨[], 0, 0, false, false, 0, []⟩]⟩ 0).2 0
      = (-1, (publish_task ⟨[⟨[], 0, 0, false, false, 0, []⟩]⟩ 0).2) :=
  publish_twice_second_fails ⟨[⟨[], 0, 0, false, false, 0, []⟩]⟩ 0
    ⟨[], 0, 0, false, false, 0, []⟩ (by decide) rfl

end TaskGraph

namespace RM

/-- ASCII lower-casing of one byte, as C tolower does for strcasecmp in the
C locale (bytes 65..90 shift to 97..122). -/
def lowerAscii (c : Nat) : Nat :=
  if 65 ≤ c ∧ c ≤ 90 then c + 32 else c

/-- strcasecmp equality: both byte strings agree after lower-casing. -/
def caseEq (a b : List Nat) : Bool :=
  a.map lowerAscii == b.map lowerAscii

/-- C locale isspace over a byte: space, tab, newline, vertical tab, form
feed, carriage return. -/
def isSpaceC (c : Nat) : Bool :=
  c == 32 || c == 9 || c == 10 || c == 11 || c == 12 || c == 13

/-- C locale isdigit over a byte. -/
def isDigitC (c : Nat) : Bool :=
  48 ≤ c && c ≤ 57

/-- Value of a digit-byte string, most significant digit first. -/
def digitsToNat (ds : List Nat) : Nat :=
  ds.foldl (fun a c => a * 10 + (c - 48)) 0

/-- strtol(s, &end, 10), restricted to what parse_build_mode_env observes:
some v when a decimal prefix was converted (end != s), none when no
conversion was performed.  Clamping to LONG_MAX/LONG_MIN on overflow is not
modelled: the caller only compares the value with zero and the clamp
bounds are nonzero. -/
def strtolDec (s : List Nat) : Option Int :=
  let r1 := s.dropWhile isSpaceC
  let neg : Bool := match r1 with
    | c :: _ => c == 45
    | [] => false
  let pos : Bool := match r1 with
    | c :: _ => c == 43
    | [] => false
  let r2 := if neg || pos then r1.tail else r1
  let ds := r2.takeWhile isDigitC
  if ds.isEmpty then none
  else if neg then some (-(digitsToNat ds : Int))
  else some ((digitsToNat ds : Int))

/-- The byte string "sequential". -/
def seqChars : List Nat := [115, 101, 113, 117, 101, 110, 116, 105, 97, 108]

/-- The byte string "concurrent". -/
def conChars : List Nat := [99, 111, 110, 99, 117, 114, 114, 101, 110, 116]

/-- parse_build_mode_env from runtime_maker.cpp: a null or empty value keeps
the default; "0" or case-insensitive "sequential" selects 0; "1" or
case-insensitive "concurrent" selects 1; otherwise a parseable decimal
prefix selects 1 when nonzero and 0 when zero, and the default is kept
when nothing parses. -/
def parse_build_mode_env (s : Option (List Nat)) (default_mode : Int) : Int :=
  match s with
  | none => default_mode
  | some cs =>
    if cs.isEmpty then default_mode
    else if cs == [48] || caseEq cs seqChars then 0
    else if cs == [49] || caseEq cs conChars then 1
    else match strtolDec cs with
      | some v => if v ≠ 0 then 1 else 0
      | none => default_mode

lemma strtolDec_none_of_head (c : Nat) (r : List Nat)
    (hsp : isSpaceC c = false) (hdig : isDigitC c = false)
    (hm : c ≠ 45) (hp : c ≠ 43) : strtolDec (c :: r) = none := by
  unfold strtolDec
  have h1 : (c :: r).dropWhile isSpaceC = c :: r := by
    rw [List.dropWhile_cons_of_neg]
    simp [hsp]
  rw [h1]
  have hmb : (c == 45) = false := by simpa using hm
  have hpb : (c == 43) = false := by simpa using hp
  simp [hmb, hpb, List.takeWhile_cons, hdig]

lemma caseEq_head_lower {s : List Nat} {c : Nat} {w : List Nat}
    (h : caseEq s (c :: w) = true) :
    ∃ c0 r, s = c0 :: r ∧ lowerAscii c0 = lowerAscii c := by
  unfold caseEq at h
  rw [beq_iff_eq] at h
  cases s with
  | nil => simp at h
  | cons c0 r =>
    refine ⟨c0, r, rfl, ?_⟩
    simp at h
    exact h.1

lemma lowerAscii_eq_115 {c : Nat} (h : lowerAscii c = 115) :
    c = 115 ∨ c = 83 := by
  unfold lowerAscii at h
  split at h <;> omega

lemma lowerAscii_eq_99 {c : Nat} (h : lowerAscii c = 99) :
    c = 99 ∨ c = 67 := by
  unfold lowerAscii at h
  split at h <;> omega

lemma caseEq_seq_strtol_none {s : List Nat} (h : caseEq s seqChars = true) :
    strtolDec s = none := by
  obtain ⟨c0, r, rfl, hlow⟩ := caseEq_head_lower (w := seqChars.tail) (by simpa [seqChars] using h)
  have : c0 = 115 ∨ c0 = 83 := lowerAscii_eq_115 (by simpa [lowerAscii] using hlow)
  rcases this with rfl | rfl <;>
    exact strtolDec_none_of_head _ r (by decide) (by decide) (by decide) (by decide)

lemma caseEq_con_strtol_none {s : List Nat} (h : caseEq s conChars = true) :
    strtolDec s = none := by
  obtain ⟨c0, r, rfl, hlow⟩ := caseEq_head_lower (w := conChars.tail) (by simpa [conChars] using h)
  have : c0 = 99 ∨ c0 = 67 := lowerAscii_eq_99 (by simpa [lowerAscii] using hlow)
  rcases this with rfl | rfl <;>
    exact strtolDec_none_of_head _ r (by decide) (by decide) (by decide) (by decide)

lemma caseEq_not_both {s : List Nat} (h1 : caseEq s seqChars = true)
    (h2 : caseEq s conChars = true) : False := by
  unfold caseEq at h1 h2
  rw [beq_iff_eq] at h1 h2
  rw [h1] at h2
  exact absurd h2 (by decide)

lemma caseEq_seq_ne_zero {s : List Nat} (h : caseEq s seqChars = true) :
    (s == [48]) = false := by
  unfold caseEq at h
  rw [beq_iff_eq] at h
  rcases hbe : s == [48] with _ | _
  · rfl
  · rw [beq_iff_eq] at hbe
    subst hbe
    exact absurd h (by decide)

lemma caseEq_con_ne_one {s : List Nat} (h : caseEq s conChars = true) :
    (s == [49]) = false := by
  unfold caseEq at h
  rw [beq_iff_eq] at h
  rcases hbe : s == [49] with _ | _
  · rfl
  · rw [beq_iff_eq] at hbe
    subst hbe
    exact absurd h (by decide)

/-- C4: parse_build_mode_env returns 0 for "0" or case-insensitive
"sequential", 1 for "1" or case-insensitive "concurrent", 1 for a
parseable decimal prefix with nonzero value and 0 for a zero one, the
supplied default for a null, empty or unparseable value, and never
anything outside 0, 1 and the default. -/
theorem parse_build_mode_env_cases (s : List Nat) (d : Int) :
    parse_build_mode_env none d = d ∧
    parse_build_mode_env (some []) d = d ∧
    ((s = [48] ∨ caseEq s seqChars = true) →
      parse_build_mode_env (some s) d = 0) ∧
    ((s = [49] ∨ caseEq s conChars = true) →
      parse_build_mode_env (some s) d = 1) ∧
    (∀ v : Int, strtolDec s = some v → v ≠ 0 →
      parse_build_mode_env (some s) d = 1) ∧
    (strtolDec s = some 0 → parse_build_mode_env (some s) d = 0) ∧
    (strtolDec s = none → s ≠ [48] → caseEq s seqChars = false →
      s ≠ [49] → caseEq s conChars = false →
      parse_build_mode_env (some s) d = d) ∧
    (parse_build_mode_env (some s) d = 0 ∨
      parse_build_mode_env (some s) d = 1 ∨
      parse_build_mode_env (some s) d = d) := by
  refine ⟨rfl, rfl, ?_, ?_, ?_, ?_, ?_, ?_⟩
  · rintro (rfl | hseq)
    · rfl
    · have hne : s.isEmpty = false := by
        unfold caseEq at hseq
        rw [beq_iff_eq] at hseq
        cases s with
        | nil => exact absurd hseq (by decide)
        | cons a r => rfl
      simp [parse_build_mode_env, hne, hseq]
  · rintro (rfl | hcon)
    · rfl
    · have hne : s.isEmpty = false := by
        unfold caseEq at hcon
        rw [beq_iff_eq] at hcon
        cases s with
        | nil => exact absurd hcon (by decide)
        | cons a r => rfl
      have h0 : (s == [48]) = false := by
        rcases hbe : s == [48] with _ | _
        · rfl
        · rw [beq_iff_eq] at hbe
          subst hbe
          unfold caseEq at hcon
          rw [beq_iff_eq] at hcon
          exact absurd hcon (by decide)
      have hseq : caseEq s seqChars = false := by
        rcases hb : caseEq s seqChars with _ | _
        · rfl
        · exact absurd (caseEq_not_both hb hcon) (by simp)
      simp [parse_build_mode_env, hne, h0, hseq, hcon]
  · intro v hv hvne
    have hne : s.isEmpty = false := by
      cases s with
      | nil =>
        rw [show strtolDec [] = none from rfl] at hv
        exact Option.noConfusion hv
      | cons a r => rfl
    have h0 : (s == [48]) = false := by
      rcases hbe : s == [48] with _ | _
      · rfl
      · rw [beq_iff_eq] at hbe
        subst hbe
        rw [show strtolDec [48] = some 0 from rfl] at hv
        rw [Option.some.injEq] at hv
        exact absurd hv.symm hvne
    have hseq : caseEq s seqChars = false := by
      rcases hb : caseEq s seqChars with _ | _
      · rfl
      · rw [caseEq_seq_strtol_none hb] at hv
        exact Option.noConfusion hv
    by_cases h1 : (s == [49]) = true
    · simp [parse_build_mode_env, hne, h0, hseq, h1]
    · have hcon : caseEq s conChars = false := by
        rcases hb : caseEq s conChars with _ | _
        · rfl
        · rw [caseEq_con_strtol_none hb] at hv
          exact Option.noConfusion hv
      simp only [Bool.not_eq_true] at h1
      simp [parse_build_mode_env, hne, h0, hseq, h1, hcon, hv, hvne]
  · intro hv
    have hne : s.isEmpty = false := by
      cases s with
      | nil => exact absurd hv (by decide)
      | cons a r => rfl
    by_cases h0 : (s == [48]) = true
    · simp [parse_build_mode_env, hne, h0]
    · by_cases hseq : caseEq s seqChars = true
      · simp [parse_build_mode_env, hne, hseq]
      · have h1 : (s == [49]) = false := by
          rcases hbe : s == [49] with _ | _
          · rfl
          · rw [beq_iff_eq] at hbe
            subst hbe
            rw [show strtolDec [49] = some 1 from rfl] at hv
            exact absurd (Option.some.inj hv) (by decide)
        have hcon : caseEq s conChars = false := by
          rcases hb : caseEq s conChars with _ | _
          · rfl
          · rw [caseEq_con_strtol_none hb] at hv
            exact Option.noConfusion hv
        simp only [Bool.not_eq_true] at h0 hseq
        simp [parse_build_mode_env, hne, h0, hseq, h1, hcon, hv]
  · intro hnone h48 hseq h49 hcon
    cases s with
    | nil => rfl
    | cons a r =>
      have h0 : ((a :: r) == [48]) = false := by
        rcases hbe : (a :: r) == [48] with _ | _
        · rfl
        · rw [beq_iff_eq] at hbe
          exact absurd hbe h48
      have h1 : ((a :: r) == [49]) = false := by
        rcases hbe : (a :: r) == [49] with _ | _
        · rfl
        · rw [beq_iff_eq] at hbe
          exact absurd hbe h49
      simp [parse_build_mode_env, h0, h1, hseq, hcon, hnone]
  · by_cases hne : s.isEmpty = true
    · right; right
      simp [parse_build_mode_env, hne]
    · simp only [Bool.not_eq_true] at hne
      by_cases h0 : (s == [48] || caseEq s seqChars) = true
      · left
        simp [parse_build_mode_env, hne, h0]
      · simp only [Bool.not_eq_true] at h0
        by_cases h1 : (s == [49] || caseEq s conChars) = true
        · right; left
          simp [parse_build_mode_env, hne, h0, h1]
        · simp only [Bool.not_eq_true] at h1
          cases hv : strtolDec s with
          | none =>
            right; right
            simp [parse_build_mode_env, hne, h0, h1, hv]
          | some v =>
            by_cases hz : v = 0
            · left
              simp [parse_build_mode_env, hne, h0, h1, hv, hz]
            · right; left
              simp [parse_build_mode_env, hne, h0, h1, hv, hz]

/-- Witness for C4 at the concrete value "2" with default 7: a nonzero
decimal prefix selects concurrent mode. -/
theorem parse_build_mode_env_witness :
    parse_build_mode_env (some [50]) 7 = 1 :=
  (parse_build_mode_env_cases [50] 7).2.2.2.2.1 2 rfl (by decide)

end RM


namespace RM

/-- One top-level argument of init_runtime_impl: the caller value
func_args[i], its classification arg_types[i] (0 scalar, 1 input pointer,
2 output pointer, 3 in/out pointer; a null arg_types array reads as all
scalars) and its byte size arg_sizes[i] (0 when the array is null). -/
structure MarshalArg where
  value : Nat
  atype : Nat
  asize : Nat
deriving Repr, DecidableEq

/-- Observable side effects of the marshalling loop of init_runtime_impl,
each in call order: writes into orch_args, device_malloc calls (requested
sizes), record_device_alloc records, copy_to_device calls
(device, host, bytes) and record_tensor_pair records (host, device,
bytes). -/
structure MarshalState where
  orchWrites : List (Nat × Nat)
  allocCalls : List Nat
  deviceAllocs : List Nat
  h2dCopies : List (Nat × Nat × Nat)
  tensorPairs : List (Nat × Nat × Nat)
deriving Repr, DecidableEq

def MarshalState.empty : MarshalState := ⟨[], [], [], [], []⟩

/-- Tail of a pointer-argument iteration after the failure points: record
the copy-back pair for output and in/out arguments, then write the device
address into orch_args[i]. -/
def afterCopy (a : MarshalArg) (p : Nat) (st : MarshalState) (i : Nat) :
    MarshalState :=
  let st4 := if a.atype = 2 ∨ a.atype = 3 then
    { st with tensorPairs := st.tensorPairs ++ [(a.value, p, a.asize)] }
    else st
  { st4 with orchWrites := st4.orchWrites ++ [(i, p)] }

/-- The marshalling loop of init_runtime_impl (runtime_maker.cpp, the for
loop over func_args).  `alloc n` is the result of the n-th device_malloc
call (0 models a null pointer) and `copyRc n` the status of the n-th
copy_to_device call. -/
def marshalLoop (alloc : Nat → Nat) (copyRc : Nat → Int) :
    List MarshalArg → Nat → MarshalState → Int × MarshalState
  | [], _, st => (0, st)
  | a :: rest, i, st =>
    if a.atype = 0 then
      marshalLoop alloc copyRc rest (i + 1)
        { st with orchWrites := st.orchWrites ++ [(i, a.value)] }
    else
      let p := alloc st.allocCalls.length
      let st1 := { st with allocCalls := st.allocCalls ++ [a.asize] }
      if p = 0 then (-1, st1)
      else
        let st2 := { st1 with deviceAllocs := st1.deviceAllocs ++ [p] }
        if a.atype = 1 ∨ a.atype = 3 then
          if copyRc st2.h2dCopies.length ≠ 0 then (-1, st2)
          else
            marshalLoop alloc copyRc rest (i + 1)
              (afterCopy a p
                { st2 with h2dCopies := st2.h2dCopies ++ [(p, a.value, a.asize)] } i)
        else
          marshalLoop alloc copyRc rest (i + 1) (afterCopy a p st2 i)

/-- Result of init_runtime_impl: the returned status, the marshalling side
effects, and the value assigned to orch_argc (none when the assignment was
never reached). -/
structure InitResult where
  ret : Int
  mstate : MarshalState
  orchArgcSet : Option Nat
deriving Repr, DecidableEq

/-- init_runtime_impl from runtime_maker.cpp over the inputs the claims
concern: the null-parameter checks, the RUNTIME_MAX_ORCH_ARGS capacity
check, the marshalling loop, the orch_argc assignment, and the
RUNTIME_MAX_AICPU_ORCH_SO_SIZE embedding check.  The device collaborators
are the same oracles as in marshalLoop. -/
def init_runtime_impl (maxOrchArgs maxSoSize : Nat)
    (alloc : Nat → Nat) (copyRc : Nat → Int)
    (runtimeNull soNull fnNull : Bool) (soSize : Nat)
    (args : List MarshalArg) : InitResult :=
  if runtimeNull then ⟨-1, MarshalState.empty, none⟩
  else if soNull ∨ soSize = 0 ∨ fnNull then ⟨-1, MarshalState.empty, none⟩
  else if maxOrchArgs < args.length then ⟨-1, MarshalState.empty, none⟩
  else
    let r := marshalLoop alloc copyRc args 0 MarshalState.empty
    if r.1 ≠ 0 then ⟨r.1, r.2, none⟩
    else if maxSoSize < soSize then ⟨-1, r.2, some args.length⟩
    else ⟨0, r.2, some args.length⟩

end RM

namespace RM

/-- C7: when func_args_count exceeds RUNTIME_MAX_ORCH_ARGS,
init_runtime_impl returns -1 having performed no device allocation, no
host-to-device copy and no orch_args write. -/
theorem init_capacity_error_before_any_transfer
    (maxOrchArgs maxSoSize : Nat) (alloc : Nat → Nat) (copyRc : Nat → Int)
    (runtimeNull soNull fnNull : Bool) (soSize : Nat)
    (args : List MarshalArg) (hcap : maxOrchArgs < args.length) :
    (init_runtime_impl maxOrchArgs maxSoSize alloc copyRc
        runtimeNull soNull fnNull soSize args).ret = -1 ∧
    (init_runtime_impl maxOrchArgs maxSoSize alloc copyRc
        runtimeNull soNull fnNull soSize args).mstate.allocCalls = [] ∧
    (init_runtime_impl maxOrchArgs maxSoSize alloc copyRc
        runtimeNull soNull fnNull soSize args).mstate.h2dCopies = [] ∧
    (init_runtime_impl maxOrchArgs maxSoSize alloc copyRc
        runtimeNull soNull fnNull soSize args).mstate.orchWrites = [] ∧
    (init_runtime_impl maxOrchArgs maxSoSize alloc copyRc
        runtimeNull soNull fnNull soSize args).mstate.deviceAllocs = [] := by
  unfold init_runtime_impl
  by_cases h1 : runtimeNull = true
  · simp [h1, MarshalState.empty]
  · simp only [Bool.not_eq_true] at h1
    by_cases h2 : soNull = true ∨ soSize = 0 ∨ fnNull = true
    · simp [h1, h2, MarshalState.empty]
    · simp [h1, h2, hcap, MarshalState.empty]

/-- Witness for C7: two arguments against a capacity of one. -/
theorem init_capacity_error_witness :
    (init_runtime_impl 1 64 (fun _ => 7) (fun _ => 0) false false false 4
        [⟨5, 0, 0⟩, ⟨6, 1, 8⟩]).ret = -1 ∧
    (init_runtime_impl 1 64 (fun _ => 7) (fun _ => 0) false false false 4
        [⟨5, 0, 0⟩, ⟨6, 1, 8⟩]).mstate.allocCalls = [] ∧
    (init_runtime_impl 1 64 (fun _ => 7) (fun _ => 0) false false false 4
        [⟨5, 0, 0⟩, ⟨6, 1, 8⟩]).mstate.h2dCopies = [] ∧
    (init_runtime_impl 1 64 (fun _ => 7) (fun _ => 0) false false false 4
        [⟨5, 0, 0⟩, ⟨6, 1, 8⟩]).mstate.orchWrites = [] ∧
    (init_runtime_impl 1 64 (fun _ => 7) (fun _ => 0) false false false 4
        [⟨5, 0, 0⟩, ⟨6, 1, 8⟩]).mstate.deviceAllocs = [] :=
  init_capacity_error_before_any_transfer 1 64 (fun _ => 7) (fun _ => 0)
    false false false 4 [⟨5, 0, 0⟩, ⟨6, 1, 8⟩] (by decide)

end RM

namespace RM

lemma afterCopy_eq (a : MarshalArg) (p : Nat) (st : MarshalState) (i : Nat) :
    afterCopy a p st i =
      ⟨st.orchWrites ++ [(i, p)], st.allocCalls, st.deviceAllocs,
       st.h2dCopies,
       st.tensorPairs ++
         (if a.atype = 2 ∨ a.atype = 3 then [(a.value, p, a.asize)] else [])⟩ := by
  unfold afterCopy
  by_cases h : a.atype = 2 ∨ a.atype = 3
  · simp [h]
  · simp [h]

lemma marshalLoop_extends (alloc : Nat → Nat) (copyRc : Nat → Int)
    (l : List MarshalArg) : ∀ i st, ∃ e1 e2 e3 e4 e5,
      (marshalLoop alloc copyRc l i st).2 =
        ⟨st.orchWrites ++ e1, st.allocCalls ++ e2, st.deviceAllocs ++ e3,
         st.h2dCopies ++ e4, st.tensorPairs ++ e5⟩ := by
  induction l with
  | nil =>
    intro i st
    exact ⟨[], [], [], [], [], by simp [marshalLoop]⟩
  | cons a rest ih =>
    intro i st
    by_cases h0 : a.atype = 0
    · obtain ⟨e1, e2, e3, e4, e5, he⟩ :=
        ih (i + 1) { st with orchWrites := st.orchWrites ++ [(i, a.value)] }
      refine ⟨(i, a.value) :: e1, e2, e3, e4, e5, ?_⟩
      simp only [marshalLoop, if_pos h0]
      rw [he]
      simp
    · by_cases hp : alloc st.allocCalls.length = 0
      · refine ⟨[], [a.asize], [], [], [], ?_⟩
        simp only [marshalLoop, if_neg h0, if_pos hp]
        simp
      · by_cases hio : a.atype = 1 ∨ a.atype = 3
        · by_cases hrc : copyRc st.h2dCopies.length ≠ 0
          · refine ⟨[], [a.asize], [alloc st.allocCalls.length], [], [], ?_⟩
            simp only [marshalLoop, if_neg h0, if_neg hp, if_pos hio, if_pos hrc]
            simp
          · obtain ⟨e1, e2, e3, e4, e5, he⟩ := ih (i + 1)
              (afterCopy a (alloc st.allocCalls.length)
                { st with allocCalls := st.allocCalls ++ [a.asize],
                          deviceAllocs := st.deviceAllocs ++ [alloc st.allocCalls.length],
                          h2dCopies := st.h2dCopies ++
                            [(alloc st.allocCalls.length, a.value, a.asize)] } i)
            refine ⟨(i, alloc st.allocCalls.length) :: e1, a.asize :: e2,
              alloc st.allocCalls.length :: e3,
              (alloc st.allocCalls.length, a.value, a.asize) :: e4,
              (if a.atype = 2 ∨ a.atype = 3 then
                [(a.value, alloc st.allocCalls.length, a.asize)] else []) ++ e5, ?_⟩
            · simp only [marshalLoop, if_neg h0, if_neg hp, if_pos hio, if_neg hrc]
              rw [he, afterCopy_eq]
              by_cases h23 : a.atype = 2 ∨ a.atype = 3
              · simp [h23]
              · simp [h23]
        · obtain ⟨e1, e2, e3, e4, e5, he⟩ := ih (i + 1)
            (afterCopy a (alloc st.allocCalls.length)
              { st with allocCalls := st.allocCalls ++ [a.asize],
                        deviceAllocs := st.deviceAllocs ++ [alloc st.allocCalls.length] } i)
          refine ⟨(i, alloc st.allocCalls.length) :: e1, a.asize :: e2,
            alloc st.allocCalls.length :: e3, e4,
            (if a.atype = 2 ∨ a.atype = 3 then
              [(a.value, alloc st.allocCalls.length, a.asize)] else []) ++ e5, ?_⟩
          simp only [marshalLoop, if_neg h0, if_neg hp, if_neg hio]
          rw [he, afterCopy_eq]
          by_cases h23 : a.atype = 2 ∨ a.atype = 3
          · simp [h23]
          · simp [h23]

lemma marshalLoop_ret (alloc : Nat → Nat) (copyRc : Nat → Int)
    (l : List MarshalArg) : ∀ i st,
      (marshalLoop alloc copyRc l i st).1 = 0 ∨
      (marshalLoop alloc copyRc l i st).1 = -1 := by
  induction l with
  | nil =>
    intro i st
    left
    simp [marshalLoop]
  | cons a rest ih =>
    intro i st
    by_cases h0 : a.atype = 0
    · simp only [marshalLoop, if_pos h0]
      exact ih ..
    · by_cases hp : alloc st.allocCalls.length = 0
      · right
        simp only [marshalLoop, if_neg h0, if_pos hp]
      · by_cases hio : a.atype = 1 ∨ a.atype = 3
        · by_cases hrc : copyRc st.h2dCopies.length ≠ 0
          · right
            simp only [marshalLoop, if_neg h0, if_neg hp, if_pos hio, if_pos hrc]
          · simp only [marshalLoop, if_neg h0, if_neg hp, if_pos hio, if_neg hrc]
            exact ih ..
        · simp only [marshalLoop, if_neg h0, if_neg hp, if_neg hio]
          exact ih ..

lemma marshalLoop_append_of_ok (alloc : Nat → Nat) (copyRc : Nat → Int)
    (l1 : List MarshalArg) : ∀ l2 i st st1,
      marshalLoop alloc copyRc l1 i st = (0, st1) →
      marshalLoop alloc copyRc (l1 ++ l2) i st
        = marshalLoop alloc copyRc l2 (i + l1.length) st1 := by
  induction l1 with
  | nil =>
    intro l2 i st st1 h
    simp [marshalLoop] at h
    subst h
    simp
  | cons a rest ih =>
    intro l2 i st st1 h
    simp only [List.cons_append]
    by_cases h0 : a.atype = 0
    · simp only [marshalLoop, if_pos h0] at h ⊢
      rw [ih _ _ _ _ h]
      simp only [List.length_cons]
      ring_nf
    · by_cases hp : alloc st.allocCalls.length = 0
      · simp only [marshalLoop, if_neg h0, if_pos hp] at h
        exact absurd (congrArg Prod.fst h) (by simp)
      · by_cases hio : a.atype = 1 ∨ a.atype = 3
        · by_cases hrc : copyRc st.h2dCopies.length ≠ 0
          · simp only [marshalLoop, if_neg h0, if_neg hp, if_pos hio, if_pos hrc] at h
            exact absurd (congrArg Prod.fst h) (by simp)
          · simp only [marshalLoop, if_neg h0, if_neg hp, if_pos hio, if_neg hrc] at h ⊢
            rw [ih _ _ _ _ h]
            simp only [List.length_cons]
            ring_nf
        · simp only [marshalLoop, if_neg h0, if_neg hp, if_neg hio] at h ⊢
          rw [ih _ _ _ _ h]
          simp only [List.length_cons]
          ring_nf

end RM

namespace RM

/-- C9: when init_runtime_impl fails partway through marshalling (a
device_malloc returned null or a copy_to_device returned nonzero), it
returns -1, never assigns orch_argc, and the device allocations and
tensor copy-back pairs recorded for the already-processed arguments stay
recorded (init_runtime_impl performs no free and removes no record on this
path), leaving them for a later validate_runtime_impl. -/
theorem init_marshal_failure_keeps_partial_records
    (maxOrchArgs maxSoSize : Nat) (alloc : Nat → Nat) (copyRc : Nat → Int)
    (soSize : Nat) (args : List MarshalArg) (k : Nat) (stk : MarshalState)
    (hso : soSize ≠ 0)
    (hcap : args.length ≤ maxOrchArgs)
    (hfail : (marshalLoop alloc copyRc args 0 MarshalState.empty).1 ≠ 0)
    (hpre : marshalLoop alloc copyRc (args.take k) 0 MarshalState.empty
      = (0, stk)) :
    (init_runtime_impl maxOrchArgs maxSoSize alloc copyRc
        false false false soSize args).ret = -1 ∧
    (init_runtime_impl maxOrchArgs maxSoSize alloc copyRc
        false false false soSize args).orchArgcSet = none ∧
    stk.deviceAllocs <+: (init_runtime_impl maxOrchArgs maxSoSize alloc copyRc
        false false false soSize args).mstate.deviceAllocs ∧
    stk.tensorPairs <+: (init_runtime_impl maxOrchArgs maxSoSize alloc copyRc
        false false false soSize args).mstate.tensorPairs := by
  have hnotlt : ¬ maxOrchArgs < args.length := Nat.not_lt.mpr hcap
  have hc1 : ¬ (false : Bool) = true := by simp
  have hc2 : ¬ ((false : Bool) = true ∨ soSize = 0 ∨ (false : Bool) = true) := by
    simp [hso]
  have hinit : init_runtime_impl maxOrchArgs maxSoSize alloc copyRc
      false false false soSize args =
      ⟨(marshalLoop alloc copyRc args 0 MarshalState.empty).1,
       (marshalLoop alloc copyRc args 0 MarshalState.empty).2, none⟩ := by
    rw [init_runtime_impl, if_neg hc1, if_neg hc2, if_neg hnotlt]
    simp only []
    rw [if_pos hfail]
  have hsplit := marshalLoop_append_of_ok alloc copyRc (args.take k)
    (args.drop k) 0 MarshalState.empty stk hpre
  rw [List.take_append_drop] at hsplit
  obtain ⟨e1, e2, e3, e4, e5, hext⟩ := marshalLoop_extends alloc copyRc
    (args.drop k) (0 + (args.take k).length) stk
  have hst : (marshalLoop alloc copyRc args 0 MarshalState.empty).2 =
      ⟨stk.orchWrites ++ e1, stk.allocCalls ++ e2, stk.deviceAllocs ++ e3,
       stk.h2dCopies ++ e4, stk.tensorPairs ++ e5⟩ := by
    rw [hsplit]
    exact hext
  have hret : (marshalLoop alloc copyRc args 0 MarshalState.empty).1 = -1 := by
    rcases marshalLoop_ret alloc copyRc args 0 MarshalState.empty with h | h
    · exact absurd h hfail
    · exact h
  rw [hinit]
  refine ⟨hret, rfl, ?_, ?_⟩
  · rw [hst]
    exact List.prefix_append ..
  · rw [hst]
    exact List.prefix_append ..

/-- Witness for C9: an in/out argument marshals fully, then device_malloc
returns null for the second argument; the first argument's records
survive the failure. -/
theorem init_marshal_failure_witness :
    (init_runtime_impl 8 64 (fun n => if n = 0 then 100 else 0) (fun _ => 0)
        false false false 4 [⟨5, 3, 4⟩, ⟨6, 1, 8⟩]).ret = -1 ∧
    (init_runtime_impl 8 64 (fun n => if n = 0 then 100 else 0) (fun _ => 0)
        false false false 4 [⟨5, 3, 4⟩, ⟨6, 1, 8⟩]).orchArgcSet = none ∧
    MarshalState.deviceAllocs ⟨[(0, 100)], [4], [100], [(100, 5, 4)], [(5, 100, 4)]⟩ <+:
      (init_runtime_impl 8 64 (fun n => if n = 0 then 100 else 0) (fun _ => 0)
        false false false 4 [⟨5, 3, 4⟩, ⟨6, 1, 8⟩]).mstate.deviceAllocs ∧
    MarshalState.tensorPairs ⟨[(0, 100)], [4], [100], [(100, 5, 4)], [(5, 100, 4)]⟩ <+:
      (init_runtime_impl 8 64 (fun n => if n = 0 then 100 else 0) (fun _ => 0)
        false false false 4 [⟨5, 3, 4⟩, ⟨6, 1, 8⟩]).mstate.tensorPairs :=
  init_marshal_failure_keeps_partial_records 8 64
    (fun n => if n = 0 then 100 else 0) (fun _ => 0) 4
    [⟨5, 3, 4⟩, ⟨6, 1, 8⟩] 1 ⟨[(0, 100)], [4], [100], [(100, 5, 4)], [(5, 100, 4)]⟩
    (by decide) (by decide) (by decide) (by decide)

end RM

namespace RM

/-- Spec-side contract for orch_args writes: a scalar argument at index i
passes the caller value; a pointer-classified argument passes the device
address returned by the c-th allocation, c counting pointer arguments so
far. -/
def specOrchWrites (alloc : Nat → Nat) :
    List MarshalArg → Nat → Nat → List (Nat × Nat)
  | [], _, _ => []
  | a :: rest, i, c =>
    if a.atype = 0 then (i, a.value) :: specOrchWrites alloc rest (i + 1) c
    else (i, alloc c) :: specOrchWrites alloc rest (i + 1) (c + 1)

/-- Spec-side contract for device allocations: exactly the
pointer-classified arguments allocate, each its own byte size, in
argument order. -/
def specAllocCalls : List MarshalArg → List Nat
  | [] => []
  | a :: rest =>
    if a.atype = 0 then specAllocCalls rest
    else a.asize :: specAllocCalls rest

/-- Spec-side contract for the recorded device allocations: the address of
each pointer-classified argument, in argument order. -/
def specDeviceAllocs (alloc : Nat → Nat) : List MarshalArg → Nat → List Nat
  | [], _ => []
  | a :: rest, c =>
    if a.atype = 0 then specDeviceAllocs alloc rest c
    else alloc c :: specDeviceAllocs alloc rest (c + 1)

/-- Spec-side contract for host-to-device copies: performed exactly for
input-pointer and in/out-pointer arguments. -/
def specH2dCopies (alloc : Nat → Nat) :
    List MarshalArg → Nat → List (Nat × Nat × Nat)
  | [], _ => []
  | a :: rest, c =>
    if a.atype = 0 then specH2dCopies alloc rest c
    else if a.atype = 1 ∨ a.atype = 3 then
      (alloc c, a.value, a.asize) :: specH2dCopies alloc rest (c + 1)
    else specH2dCopies alloc rest (c + 1)

/-- Spec-side contract for copy-back records: registered exactly for
output-pointer and in/out-pointer arguments. -/
def specTensorPairs (alloc : Nat → Nat) :
    List MarshalArg → Nat → List (Nat × Nat × Nat)
  | [], _ => []
  | a :: rest, c =>
    if a.atype = 0 then specTensorPairs alloc rest c
    else if a.atype = 2 ∨ a.atype = 3 then
      (a.value, alloc c, a.asize) :: specTensorPairs alloc rest (c + 1)
    else specTensorPairs alloc rest (c + 1)

lemma marshalLoop_success_state (alloc : Nat → Nat) (copyRc : Nat → Int)
    (l : List MarshalArg) : ∀ i st st',
      marshalLoop alloc copyRc l i st = (0, st') →
      st' = ⟨st.orchWrites ++ specOrchWrites alloc l i st.allocCalls.length,
             st.allocCalls ++ specAllocCalls l,
             st.deviceAllocs ++ specDeviceAllocs alloc l st.allocCalls.length,
             st.h2dCopies ++ specH2dCopies alloc l st.allocCalls.length,
             st.tensorPairs ++ specTensorPairs alloc l st.allocCalls.length⟩ := by
  induction l with
  | nil =>
    intro i st st' h
    simp [marshalLoop] at h
    subst h
    simp [specOrchWrites, specAllocCalls, specDeviceAllocs, specH2dCopies,
      specTensorPairs]
  | cons a rest ih =>
    intro i st st' h
    by_cases h0 : a.atype = 0
    · simp only [marshalLoop, if_pos h0] at h
      have := ih _ _ _ h
      subst this
      simp only [specOrchWrites, specAllocCalls, specDeviceAllocs,
        specH2dCopies, specTensorPairs, if_pos h0]
      simp
    · by_cases hp : alloc st.allocCalls.length = 0
      · simp only [marshalLoop, if_neg h0, if_pos hp] at h
        exact absurd (congrArg Prod.fst h) (by simp)
      · by_cases hio : a.atype = 1 ∨ a.atype = 3
        · by_cases hrc : copyRc st.h2dCopies.length ≠ 0
          · simp only [marshalLoop, if_neg h0, if_neg hp, if_pos hio,
              if_pos hrc] at h
            exact absurd (congrArg Prod.fst h) (by simp)
          · simp only [marshalLoop, if_neg h0, if_neg hp, if_pos hio,
              if_neg hrc] at h
            have := ih _ _ _ h
            subst this
            rw [afterCopy_eq]
            have h3 : (a.atype = 2 ∨ a.atype = 3) ↔ a.atype = 3 := by
              constructor
              · rintro (h2 | h3)
                · rcases hio with h1 | h3
                  · omega
                  · exact h3
                · exact h3
              · exact Or.inr
            simp only [specOrchWrites, specAllocCalls, specDeviceAllocs,
              specH2dCopies, specTensorPairs, if_neg h0, if_pos hio, h3]
            by_cases h33 : a.atype = 3
            · simp [h33]
            · simp [h33]
        · simp only [marshalLoop, if_neg h0, if_neg hp, if_neg hio] at h
          have := ih _ _ _ h
          subst this
          rw [afterCopy_eq]
          have h2iff : (a.atype = 2 ∨ a.atype = 3) ↔ a.atype = 2 := by
            constructor
            · rintro (h2 | h3)
              · exact h2
              · exact absurd (Or.inr h3) hio
            · exact Or.inl
          simp only [specOrchWrites, specAllocCalls, specDeviceAllocs,
            specH2dCopies, specTensorPairs, if_neg h0, if_neg hio, h2iff]
          by_cases h22 : a.atype = 2
          · simp [h22]
          · simp [h22]

end RM

namespace RM

/-- C5: on a successful init_runtime_impl, marshalling follows the
per-argument contract: scalars write the caller value to orch_args with no
allocation; pointer-classified arguments allocate their byte size and
write the device address; a host-to-device copy happens exactly for
input-pointer and in/out-pointer arguments; a copy-back tensor pair is
registered exactly for output-pointer and in/out-pointer arguments. -/
theorem init_success_marshals_per_contract
    (maxOrchArgs maxSoSize : Nat) (alloc : Nat → Nat) (copyRc : Nat → Int)
    (runtimeNull soNull fnNull : Bool) (soSize : Nat)
    (args : List MarshalArg)
    (h : (init_runtime_impl maxOrchArgs maxSoSize alloc copyRc
        runtimeNull soNull fnNull soSize args).ret = 0) :
    (init_runtime_impl maxOrchArgs maxSoSize alloc copyRc
        runtimeNull soNull fnNull soSize args).mstate =
      ⟨specOrchWrites alloc args 0 0, specAllocCalls args,
       specDeviceAllocs alloc args 0, specH2dCopies alloc args 0,
       specTensorPairs alloc args 0⟩ := by
  by_cases h1 : runtimeNull = true
  · rw [init_runtime_impl, if_pos h1] at h
    exact absurd h (by decide)
  · by_cases h2 : soNull = true ∨ soSize = 0 ∨ fnNull = true
    · rw [init_runtime_impl, if_neg h1, if_pos h2] at h
      exact absurd h (by decide)
    · by_cases h3 : maxOrchArgs < args.length
      · rw [init_runtime_impl, if_neg h1, if_neg h2, if_pos h3] at h
        exact absurd h (by decide)
      · rw [init_runtime_impl, if_neg h1, if_neg h2, if_neg h3] at h ⊢
        simp only [] at h ⊢
        by_cases h4 : (marshalLoop alloc copyRc args 0 MarshalState.empty).1 ≠ 0
        · rw [if_pos h4] at h
          exact absurd h h4
        · rw [if_neg h4] at h ⊢
          push_neg at h4
          by_cases h5 : maxSoSize < soSize
          · rw [if_pos h5] at h
            exact absurd h (by simp)
          · rw [if_neg h5] at h ⊢
            have hml : marshalLoop alloc copyRc args 0 MarshalState.empty
                = (0, (marshalLoop alloc copyRc args 0 MarshalState.empty).2) := by
              rw [← h4]
            have hss := marshalLoop_success_state alloc copyRc args 0
              MarshalState.empty _ hml
            simpa [MarshalState.empty] using hss

/-- Witness for C5: one argument of each classification, all device calls
succeeding. -/
theorem init_success_marshals_witness :
    (init_runtime_impl 8 64 (fun n => n + 100) (fun _ => 0)
        false false false 4
        [⟨42, 0, 0⟩, ⟨7, 1, 8⟩, ⟨9, 2, 16⟩, ⟨11, 3, 4⟩]).mstate =
      ⟨specOrchWrites (fun n => n + 100)
          [⟨42, 0, 0⟩, ⟨7, 1, 8⟩, ⟨9, 2, 16⟩, ⟨11, 3, 4⟩] 0 0,
       specAllocCalls [⟨42, 0, 0⟩, ⟨7, 1, 8⟩, ⟨9, 2, 16⟩, ⟨11, 3, 4⟩],
       specDeviceAllocs (fun n => n + 100)
          [⟨42, 0, 0⟩, ⟨7, 1, 8⟩, ⟨9, 2, 16⟩, ⟨11, 3, 4⟩] 0,
       specH2dCopies (fun n => n + 100)
          [⟨42, 0, 0⟩, ⟨7, 1, 8⟩, ⟨9, 2, 16⟩, ⟨11, 3, 4⟩] 0,
       specTensorPairs (fun n => n + 100)
          [⟨42, 0, 0⟩, ⟨7, 1, 8⟩, ⟨9, 2, 16⟩, ⟨11, 3, 4⟩] 0⟩ :=
  init_success_marshals_per_contract 8 64 (fun n => n + 100) (fun _ => 0)
    false false false 4 [⟨42, 0, 0⟩, ⟨7, 1, 8⟩, ⟨9, 2, 16⟩, ⟨11, 3, 4⟩]
    (by decide)

end RM

namespace RM

/-- is_recorded_alloc from validate_runtime_impl: a non-null device pointer
that appears among the recorded device allocations. -/
def is_recorded_alloc (allocs : List Nat) (p : Nat) : Bool :=
  if p = 0 then false else allocs.contains p

/-- Device pointers freed by validate_runtime_impl, in call order: every
non-null recorded allocation, then every non-null tensor-pair device
pointer that is not a recorded allocation. -/
def validateFrees (pairs : List (Nat × Nat × Nat)) (allocs : List Nat) :
    List Nat :=
  allocs.filter (fun p => !(p == 0)) ++
    (pairs.map (fun t => t.2.1)).filter
      (fun p => !(p == 0) && !(is_recorded_alloc allocs p))

/-- Result of validate_runtime_impl: status, the copy_from_device calls,
the device_free calls, and the record collections after the clears. -/
structure ValidateResult where
  ret : Int
  copyBacks : List (Nat × Nat × Nat)
  freed : List Nat
  finalPairs : List (Nat × Nat × Nat)
  finalAllocs : List Nat
deriving Repr, DecidableEq

/-- validate_runtime_impl from runtime_maker.cpp: copy every recorded
tensor pair back to the host (the returned status is the last failing copy
status, or 0), free the recorded device allocations, free the tensor-pair
device pointers not among them, and clear both record collections.
`copyRc j` is the status of the j-th copy_from_device call. -/
def validate_runtime_impl (copyRc : Nat → Int) (runtimeNull : Bool)
    (pairs : List (Nat × Nat × Nat)) (allocs : List Nat) : ValidateResult :=
  if runtimeNull then ⟨-1, [], [], pairs, allocs⟩
  else
    ⟨(List.range pairs.length).foldl
        (fun acc j => if copyRc j ≠ 0 then copyRc j else acc) 0,
     pairs, validateFrees pairs allocs, [], []⟩

end RM

namespace RM

/-- C6: during finalize (validate_runtime_impl), assuming the recorded
device-allocation pointers are pairwise distinct and so are the pair
device pointers (device_malloc returns distinct live addresses), every
non-null recorded allocation is freed exactly once, every non-null
tensor-pair device pointer is freed exactly once (through the pair loop
only when it is not also a recorded allocation), no pointer is freed
twice, only non-null recorded pointers are freed at all, and both record
collections are cleared before returning. -/
theorem validate_frees_once_and_clears
    (copyRc : Nat → Int) (pairs : List (Nat × Nat × Nat)) (allocs : List Nat)
    (hA : allocs.Nodup) (hP : (pairs.map (fun t => t.2.1)).Nodup) :
    (validate_runtime_impl copyRc false pairs allocs).freed.Nodup ∧
    (∀ p ∈ allocs, p ≠ 0 →
      (validate_runtime_impl copyRc false pairs allocs).freed.count p = 1) ∧
    (∀ t ∈ pairs, t.2.1 ≠ 0 →
      (validate_runtime_impl copyRc false pairs allocs).freed.count t.2.1 = 1) ∧
    (∀ p ∈ (validate_runtime_impl copyRc false pairs allocs).freed,
      p ≠ 0 ∧ (p ∈ allocs ∨ p ∈ pairs.map (fun t => t.2.1))) ∧
    (validate_runtime_impl copyRc false pairs allocs).finalPairs = [] ∧
    (validate_runtime_impl copyRc false pairs allocs).finalAllocs = [] := by
  have hval : (validate_runtime_impl copyRc false pairs allocs).freed
      = validateFrees pairs allocs := rfl
  have hAB : validateFrees pairs allocs =
      allocs.filter (fun q => !(q == 0)) ++
        (pairs.map (fun t => t.2.1)).filter
          (fun q => !(q == 0) && !(is_recorded_alloc allocs q)) := rfl
  have hAnd : (allocs.filter (fun q => !(q == 0))).Nodup := hA.filter _
  have hBnd : ((pairs.map (fun t => t.2.1)).filter
      (fun q => !(q == 0) && !(is_recorded_alloc allocs q))).Nodup := hP.filter _
  have hBchar : ∀ q, q ∈ (pairs.map (fun t => t.2.1)).filter
      (fun q => !(q == 0) && !(is_recorded_alloc allocs q)) ↔
      (q ∈ pairs.map (fun t => t.2.1) ∧ q ≠ 0 ∧ q ∉ allocs) := by
    intro q
    rw [List.mem_filter]
    constructor
    · rintro ⟨hm, hcond⟩
      simp only [Bool.and_eq_true, Bool.not_eq_true'] at hcond
      obtain ⟨hq0, hrec⟩ := hcond
      have hq0' : q ≠ 0 := by simpa using hq0
      refine ⟨hm, hq0', ?_⟩
      intro hqa
      rw [is_recorded_alloc, if_neg hq0'] at hrec
      simp at hrec
      exact hrec hqa
    · rintro ⟨hm, hq0, hqa⟩
      refine ⟨hm, ?_⟩
      simp only [Bool.and_eq_true, Bool.not_eq_true']
      refine ⟨by simpa using hq0, ?_⟩
      rw [is_recorded_alloc, if_neg hq0]
      simpa using hqa
  have hAchar : ∀ q, q ∈ allocs.filter (fun q => !(q == 0)) ↔
      (q ∈ allocs ∧ q ≠ 0) := by
    intro q
    rw [List.mem_filter]
    constructor
    · rintro ⟨hm, hc⟩
      exact ⟨hm, by simpa using hc⟩
    · rintro ⟨hm, hc⟩
      exact ⟨hm, by simpa using hc⟩
  have hdisj : (allocs.filter (fun q => !(q == 0))).Disjoint
      ((pairs.map (fun t => t.2.1)).filter
        (fun q => !(q == 0) && !(is_recorded_alloc allocs q))) := by
    intro q hqA hqB
    rw [hAchar] at hqA
    rw [hBchar] at hqB
    exact hqB.2.2 hqA.1
  refine ⟨?_, ?_, ?_, ?_, rfl, rfl⟩
  · rw [hval, hAB, List.nodup_append]
    exact ⟨hAnd, hBnd, hdisj⟩
  · intro p hp hp0
    rw [hval, hAB, List.count_append]
    have hmA : p ∈ allocs.filter (fun q => !(q == 0)) :=
      (hAchar p).mpr ⟨hp, hp0⟩
    have hcA : (allocs.filter (fun q => !(q == 0))).count p = 1 :=
      List.count_eq_one_of_mem hAnd hmA
    have hnB : p ∉ (pairs.map (fun t => t.2.1)).filter
        (fun q => !(q == 0) && !(is_recorded_alloc allocs q)) := by
      intro hmB
      exact ((hBchar p).mp hmB).2.2 hp
    rw [hcA, List.count_eq_zero_of_not_mem hnB]
  · intro t ht hp0
    rw [hval, hAB, List.count_append]
    have hmdev : t.2.1 ∈ pairs.map (fun u => u.2.1) :=
      List.mem_map_of_mem _ ht
    by_cases hpa : t.2.1 ∈ allocs
    · have hmA : t.2.1 ∈ allocs.filter (fun q => !(q == 0)) :=
        (hAchar _).mpr ⟨hpa, hp0⟩
      have hcA : (allocs.filter (fun q => !(q == 0))).count t.2.1 = 1 :=
        List.count_eq_one_of_mem hAnd hmA
      have hnB : t.2.1 ∉ (pairs.map (fun u => u.2.1)).filter
          (fun q => !(q == 0) && !(is_recorded_alloc allocs q)) := by
        intro hmB
        exact ((hBchar _).mp hmB).2.2 hpa
      rw [hcA, List.count_eq_zero_of_not_mem hnB]
    · have hnA : t.2.1 ∉ allocs.filter (fun q => !(q == 0)) := by
        intro hmA
        exact hpa ((hAchar _).mp hmA).1
      have hmB : t.2.1 ∈ (pairs.map (fun u => u.2.1)).filter
          (fun q => !(q == 0) && !(is_recorded_alloc allocs q)) :=
        (hBchar _).mpr ⟨hmdev, hp0, hpa⟩
      have hcB : ((pairs.map (fun u => u.2.1)).filter
          (fun q => !(q == 0) && !(is_recorded_alloc allocs q))).count t.2.1 = 1 :=
        List.count_eq_one_of_mem hBnd hmB
      rw [List.count_eq_zero_of_not_mem hnA, hcB]
  · intro p hp
    rw [hval, hAB, List.mem_append] at hp
    rcases hp with hp | hp
    · obtain ⟨hm, h0⟩ := (hAchar p).mp hp
      exact ⟨h0, Or.inl hm⟩
    · obtain ⟨hm, h0, _⟩ := (hBchar p).mp hp
      exact ⟨h0, Or.inr hm⟩

/-- Witness for C6: two recorded allocations (one shared with a tensor
pair) and one pair-only device pointer; each is freed exactly once and
both collections end cleared. -/
theorem validate_frees_once_witness :
    (validate_runtime_impl (fun _ => 0) false [(10, 100, 8), (11, 200, 4)]
        [100, 300]).freed.Nodup ∧
    (∀ p ∈ [100, 300], p ≠ 0 →
      (validate_runtime_impl (fun _ => 0) false [(10, 100, 8), (11, 200, 4)]
        [100, 300]).freed.count p = 1) ∧
    (∀ t ∈ [((10 : Nat), (100 : Nat), (8 : Nat)), (11, 200, 4)], t.2.1 ≠ 0 →
      (validate_runtime_impl (fun _ => 0) false [(10, 100, 8), (11, 200, 4)]
        [100, 300]).freed.count t.2.1 = 1) ∧
    (∀ p ∈ (validate_runtime_impl (fun _ => 0) false [(10, 100, 8), (11, 200, 4)]
        [100, 300]).freed,
      p ≠ 0 ∧ (p ∈ [100, 300] ∨
        p ∈ [((10 : Nat), (100 : Nat), (8 : Nat)), (11, 200, 4)].map
          (fun t => t.2.1))) ∧
    (validate_runtime_impl (fun _ => 0) false [(10, 100, 8), (11, 200, 4)]
        [100, 300]).finalPairs = [] ∧
    (validate_runtime_impl (fun _ => 0) false [(10, 100, 8), (11, 200, 4)]
        [100, 300]).finalAllocs = [] :=
  validate_frees_once_and_clears (fun _ => 0) [(10, 100, 8), (11, 200, 4)]
    [100, 300] (by decide) (by decide)

end RM

namespace FC

/-- CoreFunctionBinCache header (function_cache.h): total data size, kernel
count, and the offset table that follows the 16-byte header.  Addresses
are modelled as byte offsets from the start of the cache. -/
structure CoreFunctionBinCache where
  dataSize : Nat
  numKernels : Nat
  offsets : List Nat
deriving Repr, DecidableEq

/-- Well-formed cache: the offset table holds exactly numKernels entries
(the layout reserves numKernels 8-byte slots after the header). -/
def CoreFunctionBinCache.wf (c : CoreFunctionBinCache) : Prop :=
  c.offsets.length = c.numKernels

/-- GetOffsets: the offset table begins right after the 16-byte header. -/
def CoreFunctionBinCache.GetOffsets (_ : CoreFunctionBinCache) : Nat := 16

/-- GetBinaryData: the binary data region begins after the offset table of
numKernels 8-byte entries. -/
def CoreFunctionBinCache.GetBinaryData (c : CoreFunctionBinCache) : Nat :=
  c.GetOffsets + c.numKernels * 8

/-- GetKernel from function_cache.h: index checked against numKernels; in
range, the result is the data region base plus the indexed offset-table
entry (the table dereference appears only behind the bounds check). -/
def CoreFunctionBinCache.GetKernel (c : CoreFunctionBinCache) (index : Nat) :
    Option Nat :=
  if c.numKernels ≤ index then none
  else (c.offsets[index]?).map (fun off => c.GetBinaryData + off)

/-- C10: GetKernel returns null whenever index is at least numKernels, and
for a well-formed cache an index strictly below numKernels reads the
offset table strictly in bounds and returns the corresponding kernel
address. -/
theorem GetKernel_checks_bounds (c : CoreFunctionBinCache) (index : Nat) :
    (c.numKernels ≤ index → c.GetKernel index = none) ∧
    (c.wf → index < c.numKernels →
      index < c.offsets.length ∧
      ∃ off, c.offsets[index]? = some off ∧
        c.GetKernel index = some (16 + c.numKernels * 8 + off)) := by
  constructor
  · intro h
    rw [CoreFunctionBinCache.GetKernel, if_pos h]
  · intro hwf hlt
    have hlen : index < c.offsets.length := by
      rw [hwf]
      exact hlt
    refine ⟨hlen, c.offsets[index], List.getElem?_eq_getElem hlen, ?_⟩
    rw [CoreFunctionBinCache.GetKernel, if_neg (Nat.not_le.mpr hlt),
      List.getElem?_eq_getElem hlen]
    rfl

/-- Witness for C10 on a two-kernel cache: index 5 is rejected and index 1
reads table slot 1. -/
theorem GetKernel_checks_bounds_witness :
    CoreFunctionBinCache.GetKernel ⟨40, 2, [0, 24]⟩ 5 = none ∧
    (1 < List.length [0, 24] ∧
      ∃ off, [0, 24][(1 : Nat)]? = some off ∧
        CoreFunctionBinCache.GetKernel ⟨40, 2, [0, 24]⟩ 1
          = some (16 + 2 * 8 + off)) :=
  ⟨(GetKernel_checks_bounds ⟨40, 2, [0, 24]⟩ 5).1 (by decide),
   (GetKernel_checks_bounds ⟨40, 2, [0, 24]⟩ 1).2 rfl (by decide)⟩

end FC

namespace Orch

/-- Target core type tag used by the vector example (CoreType::AIV). -/
def AIV : Nat := 1

/-- Bit pattern of the float 1.0f, as produced through ScalarConverter. -/
def FLOAT_ONE : Nat := 1065353216

/-- Bit pattern of the float 2.0f, as produced through ScalarConverter. -/
def FLOAT_TWO : Nat := 1073741824

/-- static_cast of a uint64 value to a 32-bit int (two's complement). -/
def i32ofU64 (x : Nat) : Int :=
  let r := x % 4294967296
  if r < 2147483648 then (r : Int) else (r : Int) - 4294967296

/-- static_cast of an int value back to uint64 (two's complement). -/
def u64ofInt (x : Int) : Nat := (x % 18446744073709551616).toNat

/-- One Builder API call issued by the delegate, with the identifiers as
the delegate passed or received them. -/
inductive BEvent where
  | addTask (ret : Int)
  | addEdge (pred succ : Int)
  | publish (tid : Int)
deriving Repr, DecidableEq

/-- The orchestration delegate of the vector example
(kernels/aicpu/orchestration.cpp): checks its runtime, argument count,
device argument pointers, capability table and intermediate allocations,
then builds the 4-task diamond through the Builder API, ignoring the
statuses of add_successor_conditional and publish_task, and finally
requires kernel addresses 0..2 to be registered.  The result is the
returned status, the final store and the Builder API call trace. -/
def orchestration (caps : TaskGraph.Caps) (ka : Nat → Nat)
    (runtimeNull apiNull : Bool) (orchArgc : Nat) (orchArgs : List Nat)
    (devAlloc : Nat → Nat) :
    Int × TaskGraph.GraphStore × List BEvent :=
  if runtimeNull then (-1, TaskGraph.GraphStore.empty, [])
  else if orchArgc < 7 then (-1, TaskGraph.GraphStore.empty, [])
  else
    let dev_a := orchArgs.getD 0 0
    let dev_b := orchArgs.getD 1 0
    let dev_f := orchArgs.getD 2 0
    let size : Int := i32ofU64 (orchArgs.getD 6 0)
    if dev_a = 0 ∨ dev_b = 0 ∨ dev_f = 0 ∨ size ≤ 0 then
      (-1, TaskGraph.GraphStore.empty, [])
    else if apiNull then (-1, TaskGraph.GraphStore.empty, [])
    else
      let dev_c := devAlloc 0
      let dev_d := devAlloc 1
      let dev_e := devAlloc 2
      if dev_c = 0 ∨ dev_d = 0 ∨ dev_e = 0 then
        (-1, TaskGraph.GraphStore.empty, [])
      else
        let szU := u64ofInt size
        let r0 := TaskGraph.add_task caps ka TaskGraph.GraphStore.empty
          [dev_a, dev_b, dev_c, szU] 0 AIV
        let t0 := r0.1
        if t0 < 0 then (-1, r0.2, [BEvent.addTask t0])
        else
          let s0p := (TaskGraph.publish_task r0.2 t0.toNat).2
          let r1 := TaskGraph.add_task caps ka s0p
            [dev_c, FLOAT_ONE, dev_d, szU] 1 AIV
          let t1 := r1.1
          if t1 < 0 then
            (-1, r1.2, [BEvent.addTask t0, BEvent.publish t0, BEvent.addTask t1])
          else
            let s1e := (TaskGraph.add_successor_conditional r1.2
              t0.toNat t1.toNat).2
            let s1p := (TaskGraph.publish_task s1e t1.toNat).2
            let r2 := TaskGraph.add_task caps ka s1p
              [dev_c, FLOAT_TWO, dev_e, szU] 1 AIV
            let t2 := r2.1
            if t2 < 0 then
              (-1, r2.2, [BEvent.addTask t0, BEvent.publish t0,
                BEvent.addTask t1, BEvent.addEdge t0 t1, BEvent.publish t1,
                BEvent.addTask t2])
            else
              let s2e := (TaskGraph.add_successor_conditional r2.2
                t0.toNat t2.toNat).2
              let s2p := (TaskGraph.publish_task s2e t2.toNat).2
              let r3 := TaskGraph.add_task caps ka s2p
                [dev_d, dev_e, dev_f, szU] 2 AIV
              let t3 := r3.1
              if t3 < 0 then
                (-1, r3.2, [BEvent.addTask t0, BEvent.publish t0,
                  BEvent.addTask t1, BEvent.addEdge t0 t1, BEvent.publish t1,
                  BEvent.addTask t2, BEvent.addEdge t0 t2, BEvent.publish t2,
                  BEvent.addTask t3])
              else
                let s3e1 := (TaskGraph.add_successor_conditional r3.2
                  t1.toNat t3.toNat).2
                let s3e2 := (TaskGraph.add_successor_conditional s3e1
                  t2.toNat t3.toNat).2
                let s3p := (TaskGraph.publish_task s3e2 t3.toNat).2
                let tr := [BEvent.addTask t0, BEvent.publish t0,
                  BEvent.addTask t1, BEvent.addEdge t0 t1, BEvent.publish t1,
                  BEvent.addTask t2, BEvent.addEdge t0 t2, BEvent.publish t2,
                  BEvent.addTask t3, BEvent.addEdge t1 t3,
                  BEvent.addEdge t2 t3, BEvent.publish t3]
                if ka 0 = 0 ∨ ka 1 = 0 ∨ ka 2 = 0 then (-1, s3p, tr)
                else (0, s3p, tr)

end Orch

namespace TaskGraph

lemma add_task_cases (caps : Caps) (ka : Nat → Nat) (st : GraphStore)
    (args : List Nat) (fid ct : Nat) :
    add_task caps ka st args fid ct = (-1, st) ∨
    add_task caps ka st args fid ct =
      (Int.ofNat st.tasks.length,
       ⟨st.tasks ++ [⟨args, fid, ct, false, false, 0, []⟩]⟩) := by
  unfold add_task
  split
  · exact Or.inl rfl
  · split
    · exact Or.inl rfl
    · split
      · exact Or.inl rfl
      · exact Or.inr rfl

end TaskGraph

namespace Orch

/-- Identifiers returned by the add_task calls of a trace, in call order. -/
def addTaskIds (tr : List BEvent) : List Int :=
  tr.filterMap (fun e => match e with
    | .addTask r => some r
    | _ => none)

/-- Edges declared by the add_successor_conditional calls of a trace, in
call order. -/
def edgesOf (tr : List BEvent) : List (Int × Int) :=
  tr.filterMap (fun e => match e with
    | .addEdge p s => some (p, s)
    | _ => none)

/-- Identifiers given to the publish_task calls of a trace, in call
order. -/
def publishesOf (tr : List BEvent) : List Int :=
  tr.filterMap (fun e => match e with
    | .publish t => some t
    | _ => none)

/-- Every declared edge appears in the trace before the publish call of
its successor task. -/
def EdgesBeforeTargetPublish (tr : List BEvent) : Prop :=
  ∀ p s, BEvent.addEdge p s ∈ tr →
    BEvent.addEdge p s ∈ tr.takeWhile (fun e => !(e == BEvent.publish s))

end Orch

namespace TaskGraph

lemma publish_length (st : GraphStore) (tid : Nat) :
    (publish_task st tid).2.tasks.length = st.tasks.length := by
  unfold publish_task
  cases h : st.tasks[tid]? with
  | none => rfl
  | some t =>
    simp only
    split
    · rfl
    · exact modifyTask_length ..

lemma add_successor_length (st : GraphStore) (p s : Nat) :
    (add_successor_conditional st p s).2.tasks.length = st.tasks.length := by
  unfold add_successor_conditional
  cases hgp : st.tasks[p]? with
  | none => rfl
  | some tp =>
    cases hgs : st.tasks[s]? with
    | none => rfl
    | some ts =>
      simp only
      split
      · rfl
      · rw [modifyTask_length, modifyTask_length]

end TaskGraph

namespace Orch

/-- C8: whenever the orchestration delegate returns 0, its Builder API call
trace created exactly the four tasks 0 < 1 < 2 < 3 via add_task, declared
exactly the diamond edges 0→1, 0→2, 1→3, 2→3, published the tasks in the
order 0, 1, 2, 3, and issued every incoming edge of a task before that
task's publish call. -/
theorem orchestration_success_builds_diamond
    (caps : TaskGraph.Caps) (ka : Nat → Nat) (runtimeNull apiNull : Bool)
    (orchArgc : Nat) (orchArgs : List Nat) (devAlloc : Nat → Nat)
    (h : (orchestration caps ka runtimeNull apiNull orchArgc orchArgs
      devAlloc).1 = 0) :
    (orchestration caps ka runtimeNull apiNull orchArgc orchArgs
        devAlloc).2.2 =
      [BEvent.addTask 0, BEvent.publish 0, BEvent.addTask 1,
       BEvent.addEdge 0 1, BEvent.publish 1, BEvent.addTask 2,
       BEvent.addEdge 0 2, BEvent.publish 2, BEvent.addTask 3,
       BEvent.addEdge 1 3, BEvent.addEdge 2 3, BEvent.publish 3] ∧
    addTaskIds (orchestration caps ka runtimeNull apiNull orchArgc orchArgs
      devAlloc).2.2 = [0, 1, 2, 3] ∧
    edgesOf (orchestration caps ka runtimeNull apiNull orchArgc orchArgs
      devAlloc).2.2 = [(0, 1), (0, 2), (1, 3), (2, 3)] ∧
    publishesOf (orchestration caps ka runtimeNull apiNull orchArgc orchArgs
      devAlloc).2.2 = [0, 1, 2, 3] ∧
    EdgesBeforeTargetPublish (orchestration caps ka runtimeNull apiNull
      orchArgc orchArgs devAlloc).2.2 := by
  have htr : (orchestration caps ka runtimeNull apiNull orchArgc orchArgs
      devAlloc).2.2 =
      [BEvent.addTask 0, BEvent.publish 0, BEvent.addTask 1,
       BEvent.addEdge 0 1, BEvent.publish 1, BEvent.addTask 2,
       BEvent.addEdge 0 2, BEvent.publish 2, BEvent.addTask 3,
       BEvent.addEdge 1 3, BEvent.addEdge 2 3, BEvent.publish 3] := by
    unfold orchestration at h ⊢
    by_cases hrn : runtimeNull = true
    · simp [hrn] at h
    rw [if_neg hrn] at h ⊢
    by_cases hac : orchArgc < 7
    · simp [hac] at h
    rw [if_neg hac] at h ⊢
    simp only [] at h ⊢
    by_cases hg1 : orchArgs.getD 0 0 = 0 ∨ orchArgs.getD 1 0 = 0 ∨
        orchArgs.getD 2 0 = 0 ∨ i32ofU64 (orchArgs.getD 6 0) ≤ 0
    · rw [if_pos hg1] at h
      simp at h
    rw [if_neg hg1] at h ⊢
    by_cases han : apiNull = true
    · simp [han] at h
    rw [if_neg han] at h ⊢
    by_cases hg2 : devAlloc 0 = 0 ∨ devAlloc 1 = 0 ∨ devAlloc 2 = 0
    · rw [if_pos hg2] at h
      simp at h
    rw [if_neg hg2] at h ⊢
    -- task 0
    rcases he0 : TaskGraph.add_task caps ka TaskGraph.GraphStore.empty
        [orchArgs.getD 0 0, orchArgs.getD 1 0, devAlloc 0,
         u64ofInt (i32ofU64 (orchArgs.getD 6 0))] 0 AIV with ⟨t0, s0⟩
    rw [he0] at h
    simp only [] at h ⊢
    rcases TaskGraph.add_task_cases caps ka TaskGraph.GraphStore.empty
        [orchArgs.getD 0 0, orchArgs.getD 1 0, devAlloc 0,
         u64ofInt (i32ofU64 (orchArgs.getD 6 0))] 0 AIV with hc | hc <;>
      rw [he0] at hc <;> injection hc with hct hcs
    · subst hct
      rw [if_pos (by decide : (-1 : Int) < 0)] at h
      simp at h
    have ht0 : t0 = 0 := by
      rw [hct]
      rfl
    subst ht0
    have hlen0 : s0.tasks.length = 1 := by
      rw [hcs]
      simp [TaskGraph.GraphStore.empty]
    clear hcs he0
    rw [if_neg (by decide : ¬ (0 : Int) < 0)] at h ⊢
    -- task 1
    have hlA : ((TaskGraph.publish_task s0 (Int.toNat 0)).2).tasks.length = 1 := by
      rw [TaskGraph.publish_length, hlen0]
    rcases he1 : TaskGraph.add_task caps ka
        (TaskGraph.publish_task s0 (Int.toNat 0)).2
        [devAlloc 0, FLOAT_ONE, devAlloc 1,
         u64ofInt (i32ofU64 (orchArgs.getD 6 0))] 1 AIV with ⟨t1, s1⟩
    rw [he1] at h
    simp only [] at h ⊢
    rcases TaskGraph.add_task_cases caps ka
        (TaskGraph.publish_task s0 (Int.toNat 0)).2
        [devAlloc 0, FLOAT_ONE, devAlloc 1,
         u64ofInt (i32ofU64 (orchArgs.getD 6 0))] 1 AIV with hc | hc <;>
      rw [he1] at hc <;> injection hc with hct hcs
    · subst hct
      rw [if_pos (by decide : (-1 : Int) < 0)] at h
      simp at h
    rw [hlA] at hct
    have ht1 : t1 = 1 := by
      rw [hct]
      rfl
    subst ht1
    have hlen1 : s1.tasks.length = 2 := by
      rw [hcs]
      simp [TaskGraph.publish_length, hlen0]
    clear hcs he1
    rw [if_neg (by decide : ¬ (1 : Int) < 0)] at h ⊢
    -- task 2
    have hlB : ((TaskGraph.publish_task
        (TaskGraph.add_successor_conditional s1 (Int.toNat 0)
          (Int.toNat 1)).2 (Int.toNat 1)).2).tasks.length = 2 := by
      rw [TaskGraph.publish_length, TaskGraph.add_successor_length, hlen1]
    rcases he2 : TaskGraph.add_task caps ka
        (TaskGraph.publish_task
          (TaskGraph.add_successor_conditional s1 (Int.toNat 0)
            (Int.toNat 1)).2 (Int.toNat 1)).2
        [devAlloc 0, FLOAT_TWO, devAlloc 2,
         u64ofInt (i32ofU64 (orchArgs.getD 6 0))] 1 AIV with ⟨t2, s2⟩
    rw [he2] at h
    simp only [] at h ⊢
    rcases TaskGraph.add_task_cases caps ka
        (TaskGraph.publish_task
          (TaskGraph.add_successor_conditional s1 (Int.toNat 0)
            (Int.toNat 1)).2 (Int.toNat 1)).2
        [devAlloc 0, FLOAT_TWO, devAlloc 2,
         u64ofInt (i32ofU64 (orchArgs.getD 6 0))] 1 AIV with hc | hc <;>
      rw [he2] at hc <;> injection hc with hct hcs
    · subst hct
      rw [if_pos (by decide : (-1 : Int) < 0)] at h
      simp at h
    rw [hlB] at hct
    have ht2 : t2 = 2 := by
      rw [hct]
      rfl
    subst ht2
    have hlen2 : s2.tasks.length = 3 := by
      rw [hcs]
      simp [TaskGraph.publish_length, TaskGraph.add_successor_length, hlen1]
    clear hcs he2
    rw [if_neg (by decide : ¬ (2 : Int) < 0)] at h ⊢
    -- task 3
    have hlC : ((TaskGraph.publish_task
        (TaskGraph.add_successor_conditional s2 (Int.toNat 0)
          (Int.toNat 2)).2 (Int.toNat 2)).2).tasks.length = 3 := by
      rw [TaskGraph.publish_length, TaskGraph.add_successor_length, hlen2]
    rcases he3 : TaskGraph.add_task caps ka
        (TaskGraph.publish_task
          (TaskGraph.add_successor_conditional s2 (Int.toNat 0)
            (Int.toNat 2)).2 (Int.toNat 2)).2
        [devAlloc 1, devAlloc 2, orchArgs.getD 2 0,
         u64ofInt (i32ofU64 (orchArgs.getD 6 0))] 2 AIV with ⟨t3, s3⟩
    rw [he3] at h
    simp only [] at h ⊢
    rcases TaskGraph.add_task_cases caps ka
        (TaskGraph.publish_task
          (TaskGraph.add_successor_conditional s2 (Int.toNat 0)
            (Int.toNat 2)).2 (Int.toNat 2)).2
        [devAlloc 1, devAlloc 2, orchArgs.getD 2 0,
         u64ofInt (i32ofU64 (orchArgs.getD 6 0))] 2 AIV with hc | hc <;>
      rw [he3] at hc <;> injection hc with hct hcs
    · subst hct
      rw [if_pos (by decide : (-1 : Int) < 0)] at h
      simp at h
    rw [hlC] at hct
    have ht3 : t3 = 3 := by
      rw [hct]
      rfl
    subst ht3
    clear hcs he3
    rw [if_neg (by decide : ¬ (3 : Int) < 0)] at h ⊢
    -- final kernel-address check
    by_cases hka : ka 0 = 0 ∨ ka 1 = 0 ∨ ka 2 = 0
    · rw [if_pos hka] at h
      simp at h
    rw [if_neg hka]
  refine ⟨htr, ?_, ?_, ?_, ?_⟩
  · rw [htr]
    rfl
  · rw [htr]
    rfl
  · rw [htr]
    rfl
  · rw [htr]
    intro p s hmem
    simp at hmem
    rcases hmem with ⟨rfl, rfl⟩ | ⟨rfl, rfl⟩ | ⟨rfl, rfl⟩ | ⟨rfl, rfl⟩ <;>
      decide

end Orch

namespace Orch

/-- Witness for C8: a run with registered kernels, valid device arguments
and successful intermediate allocations builds the diamond trace. -/
theorem orchestration_success_witness :
    (orchestration ⟨8, 8⟩ (fun _ => 1) false false 7 [1, 2, 3, 0, 0, 0, 6]
        (fun n => n + 50)).2.2 =
      [BEvent.addTask 0, BEvent.publish 0, BEvent.addTask 1,
       BEvent.addEdge 0 1, BEvent.publish 1, BEvent.addTask 2,
       BEvent.addEdge 0 2, BEvent.publish 2, BEvent.addTask 3,
       BEvent.addEdge 1 3, BEvent.addEdge 2 3, BEvent.publish 3] ∧
    addTaskIds (orchestration ⟨8, 8⟩ (fun _ => 1) false false 7
      [1, 2, 3, 0, 0, 0, 6] (fun n => n + 50)).2.2 = [0, 1, 2, 3] ∧
    edgesOf (orchestration ⟨8, 8⟩ (fun _ => 1) false false 7
      [1, 2, 3, 0, 0, 0, 6] (fun n => n + 50)).2.2 =
      [(0, 1), (0, 2), (1, 3), (2, 3)] ∧
    publishesOf (orchestration ⟨8, 8⟩ (fun _ => 1) false false 7
      [1, 2, 3, 0, 0, 0, 6] (fun n => n + 50)).2.2 = [0, 1, 2, 3] ∧
    EdgesBeforeTargetPublish (orchestration ⟨8, 8⟩ (fun _ => 1) false false 7
      [1, 2, 3, 0, 0, 0, 6] (fun n => n + 50)).2.2 :=
  orchestration_success_builds_diamond ⟨8, 8⟩ (fun _ => 1) false false 7
    [1, 2, 3, 0, 0, 0, 6] (fun n => n + 50) (by decide)

end Orch
